import Mathlib

/-! yflicks-yts: search filters, their validation and their query encoding.

A shallow embedding of `filters.go`:

* Go strings are byte sequences (`GoString`); source literals are taken in
  their UTF-8 encoding, as the Go compiler does.
* Go `int` fields are embedded as `Int`; the code performs no arithmetic on
  them, so no wrap-around can occur.
* The library calls the file makes (`ozzo-validation` rules and
  `ValidateStruct`, `fmt.Sprintf`, `net/url` `Values.Add`, `Values.Encode`,
  `QueryEscape`) are embedded next to the code that calls them.
* A Go `error` result is an `Option`: `none` is the nil error.
* `GetMagnetLinks` and `NewClientWithConfig` belong to a file that is not among
  the sources; they are modelled from the specification and from their tests.
-/

namespace Yts

/-! ## Strings -/

/-- A Go string: a finite sequence of bytes. -/
abbrev GoString := List (Fin 256)

/-- The bytes of a source string literal (UTF-8, as compiled by Go). -/
def lit (s : String) : GoString := s.toUTF8.data.toList.map (fun b => b.val)

/-! ## The enumerated vocabularies of `filters.go` -/

abbrev Genre := GoString
abbrev Quality := GoString
abbrev SortBy := GoString
abbrev OrderBy := GoString

def GenreAll : Genre := lit "all"
def GenreAction : Genre := lit "Action"
def GenreAdventure : Genre := lit "Adventure"
def GenreAnimation : Genre := lit "Animation"
def GenreBiography : Genre := lit "Biography"
def GenreComedy : Genre := lit "Comedy"
def GenreCrime : Genre := lit "Crime"
def GenreDocumentary : Genre := lit "Documentary"
def GenreDrama : Genre := lit "Drama"
def GenreFamily : Genre := lit "Family"
def GenreFantasy : Genre := lit "Fantasy"
def GenreFilmNoir : Genre := lit "Film-Noir"
def GenreGameShow : Genre := lit "Game-Show"
def GenreHistory : Genre := lit "History"
def GenreHorror : Genre := lit "Horror"
def GenreMusic : Genre := lit "Music"
def GenreMusical : Genre := lit "Musical"
def GenreMystery : Genre := lit "Mystery"
def GenreNews : Genre := lit "News"
def GenreRealityTV : Genre := lit "Reality-TV"
def GenreRomance : Genre := lit "Romance"
def GenreSciFi : Genre := lit "Sci-Fi"
def GenreSport : Genre := lit "Sport"
def GenreTalkShow : Genre := lit "Talk-show"
def GenreThriller : Genre := lit "Thriller"
def GenreWar : Genre := lit "War"
def GenreWestern : Genre := lit "Western"

def QualityAll : Quality := lit "all"
def Quality480p : Quality := lit "480p"
def Quality720p : Quality := lit "720p"
def Quality1080p : Quality := lit "1080p"
def Quality1080pX265 : Quality := lit "1080p.x265"
def Quality2160p : Quality := lit "2160p"
def Quality3D : Quality := lit "3D"

def SortByTitle : SortBy := lit "title"
def SortByYear : SortBy := lit "year"
def SortByRating : SortBy := lit "rating"
def SortByPeers : SortBy := lit "peers"
def SortBySeeds : SortBy := lit "seeds"
def SortByDownloadCount : SortBy := lit "download_count"
def SortByLikeCount : SortBy := lit "like_count"
def SortByDateAdded : SortBy := lit "date_added"

def OrderByAsc : OrderBy := lit "asc"
def OrderByDesc : OrderBy := lit "desc"

/-- The 27 genre constants, in declaration order. -/
def genreConstants : List Genre :=
  [GenreAll, GenreAction, GenreAdventure, GenreAnimation, GenreBiography,
   GenreComedy, GenreCrime, GenreDocumentary, GenreDrama, GenreFamily,
   GenreFantasy, GenreFilmNoir, GenreGameShow, GenreHistory, GenreHorror,
   GenreMusic, GenreMusical, GenreMystery, GenreNews, GenreRealityTV,
   GenreRomance, GenreSciFi, GenreSport, GenreTalkShow, GenreThriller,
   GenreWar, GenreWestern]

/-- The seven quality constants, in declaration order. -/
def qualityConstants : List Quality :=
  [QualityAll, Quality480p, Quality720p, Quality1080p, Quality1080pX265,
   Quality2160p, Quality3D]

/-- The eight sort keys, in declaration order. -/
def sortByConstants : List SortBy :=
  [SortByTitle, SortByYear, SortByRating, SortByPeers, SortBySeeds,
   SortByDownloadCount, SortByLikeCount, SortByDateAdded]

/-- The two order directions. -/
def orderByConstants : List OrderBy := [OrderByAsc, OrderByDesc]

/-! ## Dynamic values (`interface{}`) -/

/-- A value boxed in a Go `interface{}`: the dynamic type is the constructor.
`requiredRule` is the value `validation.Required` (a `RequiredRule` struct),
which the source passes as an element of an `In(...)` list. -/
inductive Value where
  | int (v : Int)
  | bool (v : Bool)
  | string (v : GoString)
  | quality (v : Quality)
  | genre (v : Genre)
  | sortBy (v : SortBy)
  | orderBy (v : OrderBy)
  | requiredRule
  deriving DecidableEq

/-! ## The validation library (`ozzo-validation/v4`) as used by `filters.go` -/

/-- The error values the rules used here can return. -/
inductive RuleError where
  /-- `ErrRequired`: "cannot be blank". -/
  | ErrRequired
  /-- `ErrInInvalid`: "must be a valid value". -/
  | ErrInInvalid
  /-- `ErrMinGreaterEqualThanRequired`, with its threshold parameter. -/
  | ErrMinGreaterEqualThanRequired (threshold : Int)
  /-- `ErrMaxLessEqualThanRequired`, with its threshold parameter. -/
  | ErrMaxLessEqualThanRequired (threshold : Int)
  /-- The error of `ToInt` on a value that is not an integer. -/
  | ErrCannotConvert
  deriving DecidableEq

/-- The rules `filters.go` builds. -/
inductive Rule where
  | Required
  | In (elements : List Value)
  | Min (threshold : Int)
  | Max (threshold : Int)

/-- The library's `IsEmpty`: a string of length 0, `false`, the integer 0.
A struct value is never empty. -/
def IsEmpty : Value → Bool
  | .int v => v == 0
  | .bool v => !v
  | .string v => v.length == 0
  | .quality v => v.length == 0
  | .genre v => v.length == 0
  | .sortBy v => v.length == 0
  | .orderBy v => v.length == 0
  | .requiredRule => false

/-- The library's `ToInt`. -/
def ToInt : Value → Option Int
  | .int v => some v
  | _ => none

/-- The method `Validate` of each rule.
* `Required` fails on an empty value.
* `In` returns nil on an empty value, else looks for an element that is
  `reflect.DeepEqual` to the value (same dynamic type, same contents).
* `Min` and `Max` return nil on an empty value, else compare. -/
def Rule.Validate : Rule → Value → Option RuleError
  | .Required, value => if IsEmpty value then some .ErrRequired else none
  | .In elements, value =>
    if IsEmpty value then none
    else if elements.any (fun e => decide (e = value)) then none
    else some .ErrInInvalid
  | .Min threshold, value =>
    if IsEmpty value then none
    else match ToInt value with
      | none => some .ErrCannotConvert
      | some v =>
        if decide (v ≥ threshold) then none
        else some (.ErrMinGreaterEqualThanRequired threshold)
  | .Max threshold, value =>
    if IsEmpty value then none
    else match ToInt value with
      | none => some .ErrCannotConvert
      | some v =>
        if decide (v ≤ threshold) then none
        else some (.ErrMaxLessEqualThanRequired threshold)

/-- The library's `Validate(value, rules...)`: the rules run in order and the
first error is returned. -/
def Validate (value : Value) : List Rule → Option RuleError
  | [] => none
  | rule :: rules =>
    match rule.Validate value with
    | some err => some err
    | none => Validate value rules

/-- The result of `validation.Field(&f.X, rules...)`, with the field already
resolved to its error name (the `json` tag) and its current value. -/
structure FieldRules where
  name : GoString
  value : Value
  rules : List Rule

/-- The library's `Errors`, a map from field name to that field's error. The
entries are kept in the order the fields were validated; field names are
distinct. -/
abbrev Errors := List (GoString × RuleError)

/-- The loop of `ValidateStruct`: every field is validated, and each failing
field adds one entry `errs[name] = err`. -/
def collectErrors : List FieldRules → Errors
  | [] => []
  | fr :: fields =>
    match Validate fr.value fr.rules with
    | some err => (fr.name, err) :: collectErrors fields
    | none => collectErrors fields

/-- The library's `ValidateStruct`: nil when no field failed, else the map of
all the failing fields. -/
def ValidateStruct (fields : List FieldRules) : Option Errors :=
  let errs := collectErrors fields
  if errs.length > 0 then some errs else none

/-! ## `SearchMoviesFilters` -/

structure SearchMoviesFilters where
  Limit : Int
  Page : Int
  Quality : Quality
  MinimumRating : Int
  QueryTerm : GoString
  Genre : Genre
  SortBy : SortBy
  OrderBy : OrderBy
  WithRTRatings : Bool
  deriving DecidableEq

def validateGenreRule : Rule := .In (genreConstants.map Value.genre)

def validateQualityRule : Rule := .In (qualityConstants.map Value.quality)

def DefaultSearchMoviesFilters (query : GoString) : SearchMoviesFilters :=
  { Limit := 20
    Page := 1
    Quality := QualityAll
    MinimumRating := 0
    QueryTerm := query
    Genre := GenreAll
    SortBy := SortByDateAdded
    OrderBy := OrderByDesc
    WithRTRatings := false }

def maxMinRating : Int := 9
def maxLimit : Int := 50

/-- The field rules of `validateFilters`, in source order. -/
def SearchMoviesFilters.fieldRules (f : SearchMoviesFilters) : List FieldRules :=
  [ ⟨lit "limit", .int f.Limit, [.Min 0, .Max maxLimit]⟩,
    ⟨lit "page", .int f.Page, [.Min 1]⟩,
    ⟨lit "quality", .quality f.Quality, [.Required, validateQualityRule]⟩,
    ⟨lit "minimum_rating", .int f.MinimumRating, [.Min 0, .Max maxMinRating]⟩,
    ⟨lit "genre", .genre f.Genre, [.Required, validateGenreRule]⟩,
    ⟨lit "sort_by", .sortBy f.SortBy,
      [.In (Value.requiredRule :: sortByConstants.map Value.sortBy)]⟩,
    ⟨lit "order_by", .orderBy f.OrderBy,
      [.Required, .In (orderByConstants.map Value.orderBy)]⟩,
    ⟨lit "with_rt_ratings", .bool f.WithRTRatings,
      [.In [.bool true, .bool false]]⟩ ]

def SearchMoviesFilters.validateFilters (f : SearchMoviesFilters) : Option Errors :=
  ValidateStruct f.fieldRules

/-! ## `net/url`: query escaping and `url.Values` -/

/-- The function `shouldEscape(c, encodeQueryComponent)` of `net/url`: letters,
digits and `-` `_` `.` `~` are kept, every other byte is escaped. -/
def shouldEscape (c : Fin 256) : Bool :=
  if (97 ≤ c.val && c.val ≤ 122) || (65 ≤ c.val && c.val ≤ 90)
      || (48 ≤ c.val && c.val ≤ 57) then false
  else if c.val = 45 || c.val = 95 || c.val = 46 || c.val = 126 then false
  else true

/-- The byte `"0123456789ABCDEF"[n]`. -/
def upperhex (n : Nat) : Fin 256 :=
  if n < 10 then Fin.ofNat (48 + n) else Fin.ofNat (55 + n)

/-- What `escape` writes for one byte: `+` for a space, `%XX` for a byte that
`shouldEscape`, the byte itself otherwise. -/
def escapeByte (c : Fin 256) : GoString :=
  if c = 32 then [43]
  else if shouldEscape c then [37, upperhex (c.val / 16), upperhex (c.val % 16)]
  else [c]

/-- The function `url.QueryEscape`. -/
def QueryEscape : GoString → GoString
  | [] => []
  | c :: s => escapeByte c ++ QueryEscape s

/-- The type `url.Values` (`map[string][]string`), as an association list with
distinct keys. -/
abbrev Values := List (GoString × List GoString)

/-- The map read `v[key]`: the nil slice when the key is absent. -/
def Values.get (v : Values) (key : GoString) : List GoString :=
  match v with
  | [] => []
  | (k, vs) :: rest => if k = key then vs else Values.get rest key

/-- The method `Values.Add`: `v[key] = append(v[key], value)`. -/
def Values.Add (v : Values) (key value : GoString) : Values :=
  match v with
  | [] => [(key, [value])]
  | (k, vs) :: rest =>
    if k = key then (k, vs ++ [value]) :: rest
    else (k, vs) :: Values.Add rest key value

/-- Go's `a < b` on strings: bytewise lexicographic order. -/
def strLess : GoString → GoString → Bool
  | [], [] => false
  | [], _ :: _ => true
  | _ :: _, [] => false
  | a :: as, b :: bs =>
    if a.val < b.val then true
    else if b.val < a.val then false
    else strLess as bs

/-- The order `a <= b` on strings. -/
def strLe (a b : GoString) : Prop := strLess b a = false

instance : DecidableRel strLe := fun a b => inferInstanceAs (Decidable (strLess b a = false))

/-- The call `slices.Sort(keys)`: the keys in ascending order. -/
def sortStrings (keys : List GoString) : List GoString :=
  keys.insertionSort strLe

/-- The inner loop of `Encode` for one key: one `key=value` per value, with a
`&` before it whenever the buffer is not empty. -/
def encodeKey (keyEscaped : GoString) (buf : GoString) : List GoString → GoString
  | [] => buf
  | value :: vs =>
    let buf := if buf.length > 0 then buf ++ [38] else buf
    encodeKey keyEscaped (buf ++ keyEscaped ++ [61] ++ QueryEscape value) vs

/-- The outer loop of `Encode` over the sorted keys. -/
def encodeKeys (v : Values) (buf : GoString) : List GoString → GoString
  | [] => buf
  | k :: keys => encodeKeys v (encodeKey (QueryEscape k) buf (v.get k)) keys

/-- The method `Values.Encode`: sorted by key, `&`-joined `key=value`. -/
def Values.Encode (v : Values) : GoString :=
  if v.length = 0 then []
  else encodeKeys v [] (sortStrings (v.map Prod.fst))

/-! ## `getQueryString` -/

/-- The verb `%d` of `fmt.Sprintf` on an `int`: decimal, `-` for negatives. -/
def fmtD (v : Int) : GoString := lit (toString v)

/-- The map literal `queryMapping`, its entries in source order. -/
def SearchMoviesFilters.queryMapping (f : SearchMoviesFilters) : List (GoString × Value) :=
  [ (lit "limit", .int f.Limit),
    (lit "page", .int f.Page),
    (lit "quality", .quality f.Quality),
    (lit "minimum_rating", .int f.MinimumRating),
    (lit "query_term", .string f.QueryTerm),
    (lit "genre", .genre f.Genre),
    (lit "sort_by", .sortBy f.SortBy),
    (lit "order_by", .orderBy f.OrderBy),
    (lit "with_rt_ratings", .bool f.WithRTRatings) ]

/-- The body of the `for query, value := range queryMapping` loop: the type
switch, adding the entry unless the value is zero. -/
def addQuery (queryValues : Values) (entry : GoString × Value) : Values :=
  match entry.2 with
  | .int v => if v ≠ 0 then queryValues.Add entry.1 (fmtD v) else queryValues
  | .bool v => if v then queryValues.Add entry.1 (lit "true") else queryValues
  | .string v => if v ≠ [] then queryValues.Add entry.1 v else queryValues
  | .quality v => if v ≠ [] then queryValues.Add entry.1 v else queryValues
  | .genre v => if v ≠ [] then queryValues.Add entry.1 v else queryValues
  | .sortBy v => if v ≠ [] then queryValues.Add entry.1 v else queryValues
  | .orderBy v => if v ≠ [] then queryValues.Add entry.1 v else queryValues
  | .requiredRule => queryValues

/-- The method `getQueryString`, with the order in which `range queryMapping`
visits the entries made explicit (Go leaves the iteration order of a map
unspecified). -/
def SearchMoviesFilters.getQueryStringIn (f : SearchMoviesFilters)
    (order : List (GoString × Value)) : GoString × Option Errors :=
  match f.validateFilters with
  | some err => ([], some err)
  | none => (Values.Encode (order.foldl addQuery []), none)

/-- The method `getQueryString`, the map visited in source order. -/
def SearchMoviesFilters.getQueryString (f : SearchMoviesFilters) : GoString × Option Errors :=
  f.getQueryStringIn f.queryMapping

/-! ## Reading a query string back -/

/-- The pieces of `s` between occurrences of `sep` (`strings.Split`). -/
def splitOn (sep : Fin 256) : GoString → List GoString
  | [] => [[]]
  | c :: s =>
    if c = sep then [] :: splitOn sep s
    else match splitOn sep s with
      | [] => [[c]]
      | seg :: segs => (c :: seg) :: segs

/-- The call `strings.Cut(s, sep)` for a one-byte separator: the text before
the first `sep` and the text after it (all of `s` and `""` without one). -/
def cut (sep : Fin 256) : GoString → GoString × GoString
  | [] => ([], [])
  | c :: s => if c = sep then ([], s) else ((c :: (cut sep s).1), (cut sep s).2)

/-- The `key=value` entries of a query string as written: split on `&`, each
piece cut at its first `=`. -/
def entries (s : GoString) : List (GoString × GoString) :=
  ((splitOn 38 s).filter (fun seg => seg ≠ [])).map (cut 61)

/-- The value of a hexadecimal digit (`unhex`), `none` when `ishex` fails. -/
def unhex (c : Fin 256) : Option Nat :=
  if 48 ≤ c.val ∧ c.val ≤ 57 then some (c.val - 48)
  else if 97 ≤ c.val ∧ c.val ≤ 102 then some (c.val - 97 + 10)
  else if 65 ≤ c.val ∧ c.val ≤ 70 then some (c.val - 65 + 10)
  else none

/-- The function `url.QueryUnescape`: `%XX` to the byte, `+` to a space;
`none` is the `EscapeError` of a malformed `%`. -/
def QueryUnescape : GoString → Option GoString
  | [] => some []
  | c :: s =>
    if c = 37 then
      match s with
      | h1 :: h2 :: t =>
        match unhex h1, unhex h2, QueryUnescape t with
        | some a, some b, some r => some (Fin.ofNat (16 * a + b) :: r)
        | _, _, _ => none
      | _ => none
    else if c = 43 then (QueryUnescape s).map (fun r => (32 : Fin 256) :: r)
    else (QueryUnescape s).map (fun r => c :: r)

/-- One turn of the loop of `url.ParseQuery` on the piece `seg` (the text up
to the next `&`): a piece holding `;` or a bad escape sets the error and is
skipped, an empty piece is skipped, else `m[key] = append(m[key], value)`. -/
def parseSegment (acc : Values × Bool) (seg : GoString) : Values × Bool :=
  if seg.contains 59 then (acc.1, true)
  else if seg = [] then acc
  else
    match QueryUnescape (cut 61 seg).1, QueryUnescape (cut 61 seg).2 with
    | some key, some value => (Values.Add acc.1 key value, acc.2)
    | _, _ => (acc.1, true)

/-- The function `url.ParseQuery`: the map read from the query string, and
whether an error was reported. The loop cuts the query at each `&`. -/
def ParseQuery (query : GoString) : Values × Bool :=
  (splitOn 38 query).foldl parseSegment ([], false)

/-! ## Named inputs -/

/-- The zero value `SearchMoviesFilters{}`. -/
def zeroFilters : SearchMoviesFilters :=
  { Limit := 0, Page := 0, Quality := [], MinimumRating := 0, QueryTerm := [],
    Genre := [], SortBy := [], OrderBy := [], WithRTRatings := false }

/-- The value `validSearchFilters` of `TestClient_SearchMovies`. -/
def validSearchFilters : SearchMoviesFilters :=
  { Limit := 10, Page := 1, Quality := Quality1080p, MinimumRating := 9,
    QueryTerm := lit "Oppenheimer (2023)", Genre := GenreAnimation,
    SortBy := SortByDownloadCount, OrderBy := OrderByAsc, WithRTRatings := false }

/-- The valid test filters with a query term that holds `&`, `=`, `+`, `%`
and a space. -/
def awkwardFilters : SearchMoviesFilters :=
  { validSearchFilters with QueryTerm := lit "a&b=c+d%e f", WithRTRatings := true }

/-! ## Auxiliary definitions for the statements on the query string -/

/-- What the type switch of `getQueryString` adds for one entry of
`queryMapping`: the key with the rendered value, or nothing for a zero value. -/
def queryEntry (entry : GoString × Value) : Option (GoString × GoString) :=
  match entry.2 with
  | .int v => if v ≠ 0 then some (entry.1, fmtD v) else none
  | .bool v => if v then some (entry.1, lit "true") else none
  | .string v => if v ≠ [] then some (entry.1, v) else none
  | .quality v => if v ≠ [] then some (entry.1, v) else none
  | .genre v => if v ≠ [] then some (entry.1, v) else none
  | .sortBy v => if v ≠ [] then some (entry.1, v) else none
  | .orderBy v => if v ≠ [] then some (entry.1, v) else none
  | .requiredRule => none

/-- A map entry holding one value. -/
def single (p : GoString × GoString) : GoString × List GoString := (p.1, [p.2])

/-- The text `key=value` of one entry, both sides escaped. -/
def entryText (p : GoString × GoString) : GoString :=
  QueryEscape p.1 ++ [61] ++ QueryEscape p.2

/-- The entries joined by `&`. -/
def joinEntries : List (GoString × GoString) → GoString
  | [] => []
  | p :: ps => entryText p ++ ps.flatMap (fun q => 38 :: entryText q)

/-- The nine keys of `queryMapping` in ascending order. -/
def sortedKeyNames : List GoString :=
  [lit "genre", lit "limit", lit "minimum_rating", lit "order_by", lit "page",
   lit "quality", lit "query_term", lit "sort_by", lit "with_rt_ratings"]

/-- The entries of `queryMapping`, by position in the source. -/
def fieldEntry (f : SearchMoviesFilters) : Nat → GoString × Value
  | 0 => (lit "limit", .int f.Limit)
  | 1 => (lit "page", .int f.Page)
  | 2 => (lit "quality", .quality f.Quality)
  | 3 => (lit "minimum_rating", .int f.MinimumRating)
  | 4 => (lit "query_term", .string f.QueryTerm)
  | 5 => (lit "genre", .genre f.Genre)
  | 6 => (lit "sort_by", .sortBy f.SortBy)
  | 7 => (lit "order_by", .orderBy f.OrderBy)
  | _ => (lit "with_rt_ratings", .bool f.WithRTRatings)

/-- The entries of `queryMapping` in ascending order of key. -/
def sortedMapping (f : SearchMoviesFilters) : List (GoString × Value) :=
  [ (lit "genre", .genre f.Genre),
    (lit "limit", .int f.Limit),
    (lit "minimum_rating", .int f.MinimumRating),
    (lit "order_by", .orderBy f.OrderBy),
    (lit "page", .int f.Page),
    (lit "quality", .quality f.Quality),
    (lit "query_term", .string f.QueryTerm),
    (lit "sort_by", .sortBy f.SortBy),
    (lit "with_rt_ratings", .bool f.WithRTRatings) ]

/-- The (key, value) pairs a query string is expected to carry for `f`: one
pair for each field that is not at its zero value, the value being the
decimal rendering of Limit, Page and MinimumRating, the string of Quality,
Genre, SortBy and OrderBy, `true` for WithRTRatings and the raw QueryTerm.
Listed in ascending order of key. -/
def expectedPairs (f : SearchMoviesFilters) : List (GoString × GoString) :=
  (if f.Genre ≠ [] then [(lit "genre", f.Genre)] else []) ++
  (if f.Limit ≠ 0 then [(lit "limit", fmtD f.Limit)] else []) ++
  (if f.MinimumRating ≠ 0 then [(lit "minimum_rating", fmtD f.MinimumRating)] else []) ++
  (if f.OrderBy ≠ [] then [(lit "order_by", f.OrderBy)] else []) ++
  (if f.Page ≠ 0 then [(lit "page", fmtD f.Page)] else []) ++
  (if f.Quality ≠ [] then [(lit "quality", f.Quality)] else []) ++
  (if f.QueryTerm ≠ [] then [(lit "query_term", f.QueryTerm)] else []) ++
  (if f.SortBy ≠ [] then [(lit "sort_by", f.SortBy)] else []) ++
  (if f.WithRTRatings = true then [(lit "with_rt_ratings", lit "true")] else [])

/-! ## `MovieDetailsFilters` -/

structure MovieDetailsFilters where
  WithImages : Bool
  WithCast : Bool
  deriving DecidableEq

def DefaultMovieDetailsFilters : MovieDetailsFilters :=
  { WithImages := true
    WithCast := true }

def MovieDetailsFilters.getQueryString (f : MovieDetailsFilters) : GoString :=
  let queryValues : Values := []
  let queryValues :=
    if f.WithImages then Values.Add queryValues (lit "with_images") (lit "true")
    else queryValues
  let queryValues :=
    if f.WithCast then Values.Add queryValues (lit "with_cast") (lit "true")
    else queryValues
  Values.Encode queryValues

/-! ## The methods as steps on the struct behind the receiver -/

/-- The method `validateFilters` with the struct it leaves behind the receiver
pointer: `ValidateStruct` reads each field through its pointer and the method
assigns to none. -/
def SearchMoviesFilters.validateFiltersRun (f : SearchMoviesFilters) :
    SearchMoviesFilters × Option Errors :=
  (f, f.validateFilters)

/-- The method `getQueryString` with the struct it leaves behind the receiver
pointer: after `validateFilters` the fields are only copied into
`queryMapping`. -/
def SearchMoviesFilters.getQueryStringRun (f : SearchMoviesFilters)
    (order : List (GoString × Value)) : SearchMoviesFilters × (GoString × Option Errors) :=
  match f.validateFiltersRun with
  | (f1, some err) => (f1, ([], some err))
  | (f1, none) => (f1, (Values.Encode (order.foldl addQuery []), none))

/-! ## Magnet links -/

/-- A torrent of a movie: the fields the magnet link reads. -/
structure Torrent where
  Hash : GoString
  Quality : Quality

/-- The type `TorrentMagnets`, a map from quality to magnet link, as an
association list with distinct keys. -/
abbrev TorrentMagnets := List (Quality × GoString)

/-- The map read `m[key]` with its presence flag. -/
def TorrentMagnets.get? (m : TorrentMagnets) (key : Quality) : Option GoString :=
  match m with
  | [] => none
  | (k, v) :: rest => if k = key then some v else TorrentMagnets.get? rest key

/-- The map assignment `m[key] = value`: a present key keeps its place and
takes the new value. -/
def TorrentMagnets.set (m : TorrentMagnets) (key : Quality) (value : GoString) :
    TorrentMagnets :=
  match m with
  | [] => [(key, value)]
  | (k, v) :: rest =>
    if k = key then (k, value) :: rest
    else (k, v) :: TorrentMagnets.set rest key value

/-- The tracker parameters: `trackers.Add("tr", tracker)` for each tracker in
list order, then `trackers.Encode()`. -/
def trackersQuery (trackers : List GoString) : GoString :=
  Values.Encode (trackers.foldl (fun v tracker => Values.Add v (lit "tr") tracker) [])

/-- The helper `getMagnetFor` of `TestClient_GetMagnetLinks`: the name
`<title>+[<quality>]+[<DOMAIN>]` is escaped and placed in
`magnet:?xt=urn:btih:<hash>&dn=<name>&<trackers>`. `upperDomain` is the string
`strings.ToUpper(config.SiteDomain)`. -/
def getMagnetFor (title upperDomain : GoString) (trackers : List GoString)
    (torrent : Torrent) : GoString :=
  let torrentName :=
    title ++ lit "+[" ++ torrent.Quality ++ lit "]+[" ++ upperDomain ++ lit "]"
  lit "magnet:?xt=urn:btih:" ++ torrent.Hash ++ lit "&dn=" ++ QueryEscape torrentName
    ++ lit "&" ++ trackersQuery trackers

/-- Modelled from the spec: the method `Client.GetMagnetLinks`, whose file is
not among the sources (only its test is). One magnet link per torrent, keyed
by the quality of the torrent; the torrents are taken in list order and a
later torrent of the same quality replaces the entry of an earlier one; the
empty list gives the empty map. The test builds its expected map by the same
loop, `want[torrents[i].Quality] = getMagnetFor(torrents[i])`. -/
def GetMagnetLinks (title upperDomain : GoString) (trackers : List GoString)
    (torrents : List Torrent) : TorrentMagnets :=
  torrents.foldl
    (fun magnets torrent =>
      TorrentMagnets.set magnets torrent.Quality
        (getMagnetFor title upperDomain trackers torrent))
    []

/-- The torrents of `TestClient_GetMagnetLinks`. -/
def testTorrents : List Torrent :=
  [ { Hash := lit "Hash0", Quality := Quality720p },
    { Hash := lit "Hash1", Quality := Quality1080p },
    { Hash := lit "Hash2", Quality := Quality1080p },
    { Hash := lit "Hash3", Quality := Quality2160p } ]

/-! ## Client construction -/

/-- The struct `ClientConfig`, as the tests build it; a `time.Duration` is a
number of nanoseconds and a URL is kept as its text. -/
structure ClientConfig where
  APIBaseURL : GoString
  SiteURL : GoString
  SiteDomain : GoString
  RequestTimeout : Int
  TorrentTrackers : List GoString
  Debug : Bool

/-- The errors of client construction. -/
inductive ClientError where
  | ErrInvalidClientConfig
  deriving DecidableEq

/-- A constructed client: it holds its configuration. -/
structure Client where
  config : ClientConfig

/-- Modelled from the spec: the function `NewClientWithConfig`, whose file is
not among the sources (only its test and a caller are). The request timeout
must lie in the closed interval from `TimeoutLimitLower` to
`TimeoutLimitUpper`; outside it construction fails with
`ErrInvalidClientConfig`, inside it the client is made. The two limits are
constants of the missing file and are taken as parameters. -/
def NewClientWithConfig (TimeoutLimitLower TimeoutLimitUpper : Int) (config : ClientConfig) :
    Except ClientError Client :=
  if config.RequestTimeout < TimeoutLimitLower ∨ config.RequestTimeout > TimeoutLimitUpper then
    .error .ErrInvalidClientConfig
  else
    .ok { config := config }

/-- The durations `time.Second`, `time.Minute` and `time.Hour`, in nanoseconds. -/
def Second : Int := 1000000000
def Minute : Int := 60 * Second
def Hour : Int := 60 * Minute

/-! ## Validation: which filters pass -/

theorem collectErrors_eq_nil (fields : List FieldRules) :
    collectErrors fields = [] ↔ ∀ fr ∈ fields, Validate fr.value fr.rules = none := by
  induction fields with
  | nil => simp [collectErrors]
  | cons fr rest ih =>
    cases h : Validate fr.value fr.rules with
    | none => simp [collectErrors, h, ih]
    | some err => simp [collectErrors, h]

theorem ValidateStruct_eq_none (fields : List FieldRules) :
    ValidateStruct fields = none ↔ ∀ fr ∈ fields, Validate fr.value fr.rules = none := by
  rw [← collectErrors_eq_nil]
  unfold ValidateStruct
  cases collectErrors fields <;> simp

theorem validate_limit (v : Int) :
    Validate (.int v) [.Min 0, .Max maxLimit] = none ↔ 0 ≤ v ∧ v ≤ 50 := by
  by_cases h0 : v = 0
  · subst h0; simp [Validate, Rule.Validate, IsEmpty]
  · by_cases h1 : 0 ≤ v <;> by_cases h2 : v ≤ 50 <;>
      simp [Validate, Rule.Validate, IsEmpty, ToInt, maxLimit, h0, h1, h2]

theorem validate_minimumRating (v : Int) :
    Validate (.int v) [.Min 0, .Max maxMinRating] = none ↔ 0 ≤ v ∧ v ≤ 9 := by
  by_cases h0 : v = 0
  · subst h0; simp [Validate, Rule.Validate, IsEmpty]
  · by_cases h1 : 0 ≤ v <;> by_cases h2 : v ≤ 9 <;>
      simp [Validate, Rule.Validate, IsEmpty, ToInt, maxMinRating, h0, h1, h2]

theorem validate_page (v : Int) :
    Validate (.int v) [.Min 1] = none ↔ v = 0 ∨ 1 ≤ v := by
  by_cases h0 : v = 0
  · subst h0; simp [Validate, Rule.Validate, IsEmpty]
  · by_cases h1 : 1 ≤ v <;>
      simp [Validate, Rule.Validate, IsEmpty, ToInt, h0, h1]

theorem any_quality (l : List Quality) (q : Quality) :
    (l.map Value.quality).any (fun e => decide (e = Value.quality q)) = true ↔ q ∈ l := by
  induction l with
  | nil => simp
  | cons a l ih =>
    rw [List.map_cons, List.any_cons, Bool.or_eq_true, ih, List.mem_cons, decide_eq_true_eq,
      Value.quality.injEq]
    exact ⟨fun h => h.imp Eq.symm id, fun h => h.imp Eq.symm id⟩

theorem any_genre (l : List Genre) (q : Genre) :
    (l.map Value.genre).any (fun e => decide (e = Value.genre q)) = true ↔ q ∈ l := by
  induction l with
  | nil => simp
  | cons a l ih =>
    rw [List.map_cons, List.any_cons, Bool.or_eq_true, ih, List.mem_cons, decide_eq_true_eq,
      Value.genre.injEq]
    exact ⟨fun h => h.imp Eq.symm id, fun h => h.imp Eq.symm id⟩

theorem any_sortBy (l : List SortBy) (q : SortBy) :
    (l.map Value.sortBy).any (fun e => decide (e = Value.sortBy q)) = true ↔ q ∈ l := by
  induction l with
  | nil => simp
  | cons a l ih =>
    rw [List.map_cons, List.any_cons, Bool.or_eq_true, ih, List.mem_cons, decide_eq_true_eq,
      Value.sortBy.injEq]
    exact ⟨fun h => h.imp Eq.symm id, fun h => h.imp Eq.symm id⟩

theorem any_orderBy (l : List OrderBy) (q : OrderBy) :
    (l.map Value.orderBy).any (fun e => decide (e = Value.orderBy q)) = true ↔ q ∈ l := by
  induction l with
  | nil => simp
  | cons a l ih =>
    rw [List.map_cons, List.any_cons, Bool.or_eq_true, ih, List.mem_cons, decide_eq_true_eq,
      Value.orderBy.injEq]
    exact ⟨fun h => h.imp Eq.symm id, fun h => h.imp Eq.symm id⟩

theorem nil_not_mem_qualityConstants : ([] : GoString) ∉ qualityConstants := by decide
theorem nil_not_mem_genreConstants : ([] : GoString) ∉ genreConstants := by decide
theorem nil_not_mem_sortByConstants : ([] : GoString) ∉ sortByConstants := by decide
theorem nil_not_mem_orderByConstants : ([] : GoString) ∉ orderByConstants := by decide

theorem validate_quality (q : Quality) :
    Validate (.quality q) [.Required, validateQualityRule] = none ↔ q ∈ qualityConstants := by
  cases q with
  | nil =>
    have := nil_not_mem_qualityConstants
    simp [Validate, Rule.Validate, IsEmpty, this]
  | cons c s =>
    by_cases h : (c :: s) ∈ qualityConstants
    · simp [Validate, Rule.Validate, IsEmpty, validateQualityRule, any_quality, h]
    · have h2 : ¬ ((qualityConstants.map Value.quality).any
          (fun e => decide (e = Value.quality (c :: s))) = true) := by
        rw [any_quality]; exact h
      simp [Validate, Rule.Validate, IsEmpty, validateQualityRule, h, h2]

theorem validate_genre (q : Genre) :
    Validate (.genre q) [.Required, validateGenreRule] = none ↔ q ∈ genreConstants := by
  cases q with
  | nil =>
    have := nil_not_mem_genreConstants
    simp [Validate, Rule.Validate, IsEmpty, this]
  | cons c s =>
    by_cases h : (c :: s) ∈ genreConstants
    · simp [Validate, Rule.Validate, IsEmpty, validateGenreRule, any_genre, h]
    · have h2 : ¬ ((genreConstants.map Value.genre).any
          (fun e => decide (e = Value.genre (c :: s))) = true) := by
        rw [any_genre]; exact h
      simp [Validate, Rule.Validate, IsEmpty, validateGenreRule, h, h2]

theorem validate_orderBy (q : OrderBy) :
    Validate (.orderBy q) [.Required, .In (orderByConstants.map Value.orderBy)] = none
      ↔ q ∈ orderByConstants := by
  cases q with
  | nil =>
    have := nil_not_mem_orderByConstants
    simp [Validate, Rule.Validate, IsEmpty, this]
  | cons c s =>
    by_cases h : (c :: s) ∈ orderByConstants
    · simp [Validate, Rule.Validate, IsEmpty, any_orderBy, h]
    · have h2 : ¬ ((orderByConstants.map Value.orderBy).any
          (fun e => decide (e = Value.orderBy (c :: s))) = true) := by
        rw [any_orderBy]; exact h
      simp [Validate, Rule.Validate, IsEmpty, h, h2]

theorem validate_sortBy (q : SortBy) :
    Validate (.sortBy q) [.In (Value.requiredRule :: sortByConstants.map Value.sortBy)] = none
      ↔ q = [] ∨ q ∈ sortByConstants := by
  cases q with
  | nil => simp [Validate, Rule.Validate, IsEmpty]
  | cons c s =>
    by_cases h : (c :: s) ∈ sortByConstants
    · simp [Validate, Rule.Validate, IsEmpty, any_sortBy, h]
    · have h2 : ¬ ((sortByConstants.map Value.sortBy).any
          (fun e => decide (e = Value.sortBy (c :: s))) = true) := by
        rw [any_sortBy]; exact h
      simp [Validate, Rule.Validate, IsEmpty, h, h2]

theorem validate_withRTRatings (b : Bool) :
    Validate (.bool b) [.In [.bool true, .bool false]] = none := by
  cases b <;> simp [Validate, Rule.Validate, IsEmpty]

/-- The filters that `validateFilters` accepts. -/
theorem validateFilters_eq_none (f : SearchMoviesFilters) :
    f.validateFilters = none ↔
      (0 ≤ f.Limit ∧ f.Limit ≤ 50) ∧ (f.Page = 0 ∨ 1 ≤ f.Page) ∧
      f.Quality ∈ qualityConstants ∧ (0 ≤ f.MinimumRating ∧ f.MinimumRating ≤ 9) ∧
      f.Genre ∈ genreConstants ∧ (f.SortBy = [] ∨ f.SortBy ∈ sortByConstants) ∧
      f.OrderBy ∈ orderByConstants := by
  unfold SearchMoviesFilters.validateFilters
  rw [ValidateStruct_eq_none]
  simp only [SearchMoviesFilters.fieldRules, List.mem_cons, List.mem_singleton, forall_eq_or_imp,
    forall_eq, List.not_mem_nil, false_imp_iff, implies_true, and_true, List.mem_nil_iff,
    IsEmpty.forall_iff]
  rw [validate_limit, validate_page, validate_quality, validate_minimumRating, validate_genre,
    validate_sortBy, validate_orderBy]
  simp [validate_withRTRatings]

/-- A negative Page is rejected: `Min(1)` runs on every non-zero value. -/
theorem validateFilters_rejects_negative_page (f : SearchMoviesFilters) (h : f.Page < 0) :
    f.validateFilters ≠ none := by
  intro hn
  rw [validateFilters_eq_none] at hn
  obtain ⟨_, hp, _⟩ := hn
  omega

/-- A non-empty SortBy outside the eight sort keys is rejected. -/
theorem validateFilters_rejects_unknown_sortBy (f : SearchMoviesFilters)
    (h1 : f.SortBy ≠ []) (h2 : f.SortBy ∉ sortByConstants) : f.validateFilters ≠ none := by
  intro hn
  rw [validateFilters_eq_none] at hn
  obtain ⟨_, _, _, _, _, hs, _⟩ := hn
  rcases hs with hs | hs
  · exact h1 hs
  · exact h2 hs
/-! ## The order on strings -/

theorem strLess_asymm : ∀ a b : GoString, strLess a b = true → strLess b a = false
  | [], [], h => by simp [strLess] at h
  | [], _ :: _, _ => by simp [strLess]
  | _ :: _, [], h => by simp [strLess] at h
  | a :: as, b :: bs, h => by
    unfold strLess at h ⊢
    by_cases h1 : a.val < b.val
    · have h2 : ¬ b.val < a.val := by omega
      simp [h1, h2]
    · by_cases h2 : b.val < a.val
      · simp [h1, h2] at h
      · simp only [h1, h2, if_false] at h ⊢
        exact strLess_asymm as bs h

theorem strLe_total (a b : GoString) : strLe a b ∨ strLe b a := by
  unfold strLe
  cases h : strLess b a with
  | false => exact Or.inl rfl
  | true => exact Or.inr (strLess_asymm b a h)

theorem strLe_antisymm : ∀ a b : GoString, strLe a b → strLe b a → a = b
  | [], [], _, _ => rfl
  | [], _ :: _, _, h => by simp [strLe, strLess] at h
  | _ :: _, [], h, _ => by simp [strLe, strLess] at h
  | a :: as, b :: bs, h1, h2 => by
    unfold strLe strLess at h1 h2
    by_cases c1 : a.val < b.val
    · simp [c1] at h2
    · by_cases c2 : b.val < a.val
      · simp [c2] at h1
      · simp only [c1, c2, if_false] at h1 h2
        have hab : a = b := Fin.ext (by omega)
        rw [hab, strLe_antisymm as bs h1 h2]

theorem strLess_trans : ∀ a b c : GoString,
    strLess a b = true → strLess b c = true → strLess a c = true
  | [], _, [], _, h => by cases ‹GoString› <;> simp [strLess] at h
  | [], _, _ :: _, _, _ => by simp [strLess]
  | _ :: _, [], _, h, _ => by simp [strLess] at h
  | _ :: _, _ :: _, [], _, h => by simp [strLess] at h
  | a :: as, b :: bs, c :: cs, h1, h2 => by
    unfold strLess at h1 h2 ⊢
    by_cases c1 : a.val < b.val
    · by_cases c2 : b.val < c.val
      · have : a.val < c.val := by omega
        simp [this]
      · by_cases c3 : c.val < b.val
        · simp [c2, c3] at h2
        · have : a.val < c.val := by omega
          simp [this]
    · by_cases c1b : b.val < a.val
      · simp [c1, c1b] at h1
      · simp only [c1, c1b, if_false] at h1
        by_cases c2 : b.val < c.val
        · have : a.val < c.val := by omega
          simp [this]
        · by_cases c3 : c.val < b.val
          · simp [c2, c3] at h2
          · simp only [c2, c3, if_false] at h2
            have e1 : ¬ a.val < c.val := by omega
            have e2 : ¬ c.val < a.val := by omega
            simp only [e1, e2, if_false]
            exact strLess_trans as bs cs h1 h2

theorem strLess_total : ∀ a b : GoString, strLess a b = true ∨ a = b ∨ strLess b a = true
  | [], [] => Or.inr (Or.inl rfl)
  | [], _ :: _ => by simp [strLess]
  | _ :: _, [] => by simp [strLess]
  | a :: as, b :: bs => by
    unfold strLess
    by_cases c1 : a.val < b.val
    · simp [c1]
    · by_cases c2 : b.val < a.val
      · simp [c2]
      · have hab : a = b := Fin.ext (by omega)
        simp only [c1, c2, if_false]
        rcases strLess_total as bs with h | h | h
        · exact Or.inl h
        · exact Or.inr (Or.inl (by rw [hab, h]))
        · exact Or.inr (Or.inr h)

theorem strLe_trans (a b c : GoString) (h1 : strLe a b) (h2 : strLe b c) : strLe a c := by
  unfold strLe at *
  cases h : strLess c a with
  | false => rfl
  | true =>
    rcases strLess_total b c with hbc | hbc | hbc
    · rw [strLess_trans b c a hbc h] at h1; cases h1
    · subst hbc; rw [h] at h1; cases h1
    · rw [hbc] at h2; cases h2

instance : IsTotal GoString strLe := ⟨strLe_total⟩
instance : IsTrans GoString strLe := ⟨strLe_trans⟩
instance : IsAntisymm GoString strLe := ⟨strLe_antisymm⟩

theorem sortStrings_perm (keys : List GoString) : (sortStrings keys).Perm keys :=
  List.perm_insertionSort strLe keys

theorem sortStrings_sorted (keys : List GoString) : (sortStrings keys).Sorted strLe :=
  List.sorted_insertionSort strLe keys

theorem sortStrings_eq_of_perm {k1 k2 : List GoString} (h : k1.Perm k2) :
    sortStrings k1 = sortStrings k2 :=
  List.eq_of_perm_of_sorted
    (((sortStrings_perm k1).trans h).trans (sortStrings_perm k2).symm)
    (sortStrings_sorted k1) (sortStrings_sorted k2)

theorem sortStrings_of_sorted {keys : List GoString} (h : keys.Sorted strLe) :
    sortStrings keys = keys :=
  List.Sorted.insertionSort_eq h
/-! ## Building the `url.Values` map -/

theorem addQuery_eq (v : Values) (e : GoString × Value) :
    addQuery v e = match queryEntry e with
      | some p => Values.Add v p.1 p.2
      | none => v := by
  unfold addQuery queryEntry
  cases e.2 <;> simp only <;> split <;> rfl

theorem foldl_addQuery (order : List (GoString × Value)) (v : Values) :
    order.foldl addQuery v
      = (order.filterMap queryEntry).foldl (fun v p => Values.Add v p.1 p.2) v := by
  induction order generalizing v with
  | nil => rfl
  | cons e rest ih =>
    rw [List.foldl_cons, ih, addQuery_eq]
    cases h : queryEntry e with
    | none => simp [List.filterMap_cons, h]
    | some p => simp [List.filterMap_cons, h]

theorem queryEntry_fst {e : GoString × Value} {p : GoString × GoString}
    (h : queryEntry e = some p) : p.1 = e.1 := by
  unfold queryEntry at h
  cases hv : e.2 <;> rw [hv] at h <;> simp only at h
  all_goals first
    | (split at h
       · cases h; rfl
       · cases h)
    | cases h

theorem Values_Add_of_not_mem (v : Values) (k s : GoString) (h : k ∉ v.map Prod.fst) :
    Values.Add v k s = v ++ [(k, [s])] := by
  induction v with
  | nil => rfl
  | cons a rest ih =>
    obtain ⟨k1, vs⟩ := a
    simp only [List.map_cons, List.mem_cons, not_or] at h
    have hne : ¬ k1 = k := fun e => h.1 e.symm
    simp only [Values.Add, hne, if_false, ih h.2, List.cons_append]

theorem foldl_Add_nodup (ps : List (GoString × GoString)) (v : Values)
    (h : (v.map Prod.fst ++ ps.map Prod.fst).Nodup) :
    ps.foldl (fun v p => Values.Add v p.1 p.2) v = v ++ ps.map single := by
  induction ps generalizing v with
  | nil => simp
  | cons p rest ih =>
    have hk : p.1 ∉ v.map Prod.fst := by
      intro hm
      rw [List.nodup_append] at h
      exact h.2.2 hm (by simp)
    rw [List.foldl_cons, Values_Add_of_not_mem v p.1 p.2 hk, ih]
    · simp [single]
    · have : (v ++ [(p.1, [p.2])]).map Prod.fst ++ rest.map Prod.fst
          = v.map Prod.fst ++ (p :: rest).map Prod.fst := by simp
      rw [this]; exact h

theorem get_single_of_not_mem (ps : List (GoString × GoString)) (k : GoString)
    (h : k ∉ ps.map Prod.fst) : Values.get (ps.map single) k = [] := by
  induction ps with
  | nil => rfl
  | cons p rest ih =>
    simp only [List.map_cons, List.mem_cons, not_or] at h
    have hne : ¬ p.1 = k := fun e => h.1 e.symm
    simp only [List.map_cons, single, Values.get, hne, if_false]
    exact ih h.2

theorem get_single_of_mem (ps : List (GoString × GoString)) (h : (ps.map Prod.fst).Nodup)
    (p : GoString × GoString) (hp : p ∈ ps) : Values.get (ps.map single) p.1 = [p.2] := by
  induction ps with
  | nil => cases hp
  | cons q rest ih =>
    rw [List.map_cons, List.nodup_cons] at h
    rcases List.mem_cons.1 hp with e | hm
    · subst e
      simp [single, Values.get]
    · have hne : ¬ q.1 = p.1 := by
        intro e
        exact h.1 (e ▸ List.mem_map_of_mem Prod.fst hm)
      simp only [List.map_cons, single, Values.get, hne, if_false]
      exact ih h.2 hm

theorem get_single_perm {ps qs : List (GoString × GoString)} (hperm : ps.Perm qs)
    (h : (ps.map Prod.fst).Nodup) (k : GoString) :
    Values.get (ps.map single) k = Values.get (qs.map single) k := by
  have hq : (qs.map Prod.fst).Nodup := (hperm.map Prod.fst).nodup_iff.1 h
  by_cases hk : k ∈ ps.map Prod.fst
  · obtain ⟨p, hp, rfl⟩ := List.mem_map.1 hk
    rw [get_single_of_mem ps h p hp, get_single_of_mem qs hq p (hperm.subset hp)]
  · have hk2 : k ∉ qs.map Prod.fst := fun hm => hk ((hperm.map Prod.fst).symm.subset hm)
    rw [get_single_of_not_mem ps k hk, get_single_of_not_mem qs k hk2]

/-! ## `Encode` on a map with one value per key -/

theorem encodeKeys_congr (v w : Values) (h : ∀ k, Values.get v k = Values.get w k)
    (keys : List GoString) (buf : GoString) : encodeKeys v buf keys = encodeKeys w buf keys := by
  induction keys generalizing buf with
  | nil => rfl
  | cons k rest ih => simp only [encodeKeys, h k, ih]

theorem Encode_single_perm {ps qs : List (GoString × GoString)} (hperm : ps.Perm qs)
    (h : (ps.map Prod.fst).Nodup) :
    Values.Encode (ps.map single) = Values.Encode (qs.map single) := by
  unfold Values.Encode
  have hl : (ps.map single).length = (qs.map single).length := by
    simp [hperm.length_eq]
  have hkeys : (ps.map single).map Prod.fst = ps.map Prod.fst := by
    simp [single, Function.comp_def]
  have hkeys2 : (qs.map single).map Prod.fst = qs.map Prod.fst := by
    simp [single, Function.comp_def]
  rw [hl, hkeys, hkeys2, sortStrings_eq_of_perm (hperm.map Prod.fst),
    encodeKeys_congr _ _ (get_single_perm hperm h)]

theorem entryText_ne_nil (p : GoString × GoString) : entryText p ≠ [] := by
  simp [entryText]

theorem encodeKeys_single (v : Values) (ps : List (GoString × GoString))
    (h : ∀ p ∈ ps, Values.get v p.1 = [p.2]) (buf : GoString) (hb : buf ≠ []) :
    encodeKeys v buf (ps.map Prod.fst) = buf ++ ps.flatMap (fun q => 38 :: entryText q) := by
  induction ps generalizing buf with
  | nil => simp [encodeKeys]
  | cons p rest ih =>
    have hlen : buf.length > 0 := List.length_pos.2 hb
    rw [List.map_cons, encodeKeys, h p (List.mem_cons_self _ _), encodeKey, encodeKey]
    simp only [hlen, if_true]
    rw [ih (fun q hq => h q (List.mem_cons_of_mem _ hq)) _ (by simp)]
    simp [entryText, List.flatMap_cons]

theorem encodeKeys_single_nil (v : Values) (ps : List (GoString × GoString))
    (h : ∀ p ∈ ps, Values.get v p.1 = [p.2]) :
    encodeKeys v [] (ps.map Prod.fst) = joinEntries ps := by
  cases ps with
  | nil => rfl
  | cons p rest =>
    rw [List.map_cons, encodeKeys, h p (List.mem_cons_self _ _), encodeKey, encodeKey]
    have h0 : ¬ (([] : GoString).length > 0) := by simp
    simp only [h0, if_false]
    rw [encodeKeys_single v rest (fun q hq => h q (List.mem_cons_of_mem _ hq)) _ (by simp)]
    simp [entryText, joinEntries]

theorem Encode_single_sorted (ps : List (GoString × GoString))
    (hn : (ps.map Prod.fst).Nodup) (hs : (ps.map Prod.fst).Sorted strLe) :
    Values.Encode (ps.map single) = joinEntries ps := by
  unfold Values.Encode
  have hkeys : (ps.map single).map Prod.fst = ps.map Prod.fst := by
    simp [single, Function.comp_def]
  rw [hkeys, sortStrings_of_sorted hs]
  by_cases h0 : (ps.map single).length = 0
  · have : ps = [] := by simpa using h0
    subst this; rfl
  · rw [if_neg h0]
    exact encodeKeys_single_nil _ ps (fun p hp => get_single_of_mem ps hn p hp)
/-! ## Escaping -/

theorem unhex_upperhex : ∀ n, n < 16 → unhex (upperhex n) = some n := by
  decide

theorem upperhex_not_special : ∀ n, n < 16 →
    upperhex n ≠ 38 ∧ upperhex n ≠ 61 ∧ upperhex n ≠ 59 := by
  decide

set_option maxRecDepth 100000 in
theorem not_shouldEscape_not_special : ∀ c : Fin 256, shouldEscape c = false →
    c ≠ 37 ∧ c ≠ 43 ∧ c ≠ 38 ∧ c ≠ 61 ∧ c ≠ 59 := by
  decide

theorem escapeByte_not_special (c b : Fin 256) (hb : b = 38 ∨ b = 61 ∨ b = 59) :
    b ∉ escapeByte c := by
  have h1 := upperhex_not_special (c.val / 16) (by omega)
  have h2 := upperhex_not_special (c.val % 16) (by omega)
  unfold escapeByte
  by_cases hs : c = 32
  · rw [if_pos hs]
    rcases hb with rfl | rfl | rfl <;> decide
  · rw [if_neg hs]
    cases he : shouldEscape c with
    | true =>
      simp only [if_true, List.mem_cons, List.mem_singleton, List.not_mem_nil, or_false, not_or]
      rcases hb with rfl | rfl | rfl
      · exact ⟨by decide, fun e => h1.1 e.symm, fun e => h2.1 e.symm⟩
      · exact ⟨by decide, fun e => h1.2.1 e.symm, fun e => h2.2.1 e.symm⟩
      · exact ⟨by decide, fun e => h1.2.2 e.symm, fun e => h2.2.2 e.symm⟩
    | false =>
      have h3 := not_shouldEscape_not_special c he
      simp only [Bool.false_eq_true, if_false, List.mem_singleton]
      rcases hb with rfl | rfl | rfl
      · exact fun e => h3.2.2.1 e.symm
      · exact fun e => h3.2.2.2.1 e.symm
      · exact fun e => h3.2.2.2.2 e.symm

theorem QueryEscape_not_special (s : GoString) (b : Fin 256) (hb : b = 38 ∨ b = 61 ∨ b = 59) :
    b ∉ QueryEscape s := by
  induction s with
  | nil => simp [QueryEscape]
  | cons c rest ih =>
    rw [QueryEscape, List.mem_append, not_or]
    exact ⟨escapeByte_not_special c b hb, ih⟩

theorem QueryUnescape_cons_other (c : Fin 256) (s : GoString) (h1 : c ≠ 37) (h2 : c ≠ 43) :
    QueryUnescape (c :: s) = (QueryUnescape s).map (fun r => c :: r) := by
  cases s with
  | nil => simp [QueryUnescape, h1, h2]
  | cons a t =>
    cases t with
    | nil => simp [QueryUnescape, h1, h2]
    | cons b t =>
      rw [QueryUnescape]
      simp [h1, h2]

theorem QueryUnescape_cons_plus (s : GoString) :
    QueryUnescape (43 :: s) = (QueryUnescape s).map (fun r => (32 : Fin 256) :: r) := by
  have e : ¬ ((43 : Fin 256) = 37) := by decide
  cases s with
  | nil => simp [QueryUnescape, e]
  | cons a t =>
    cases t with
    | nil => simp [QueryUnescape, e]
    | cons b t =>
      rw [QueryUnescape]
      simp [e]

theorem QueryUnescape_cons_percent (h1 h2 : Fin 256) (t : GoString) :
    QueryUnescape (37 :: h1 :: h2 :: t) =
      match unhex h1, unhex h2, QueryUnescape t with
        | some a, some b, some r => some (Fin.ofNat (16 * a + b) :: r)
        | _, _, _ => none := by
  rw [QueryUnescape]
  simp

theorem QueryUnescape_escapeByte (c : Fin 256) (rest : GoString) :
    QueryUnescape (escapeByte c ++ rest) = (QueryUnescape rest).map (fun r => c :: r) := by
  unfold escapeByte
  by_cases hs : c = 32
  · rw [if_pos hs]
    subst hs
    exact QueryUnescape_cons_plus rest
  · rw [if_neg hs]
    cases he : shouldEscape c with
    | true =>
      have h1 := unhex_upperhex (c.val / 16) (by omega)
      have h2 := unhex_upperhex (c.val % 16) (by omega)
      have hc : (Fin.ofNat (16 * (c.val / 16) + c.val % 16) : Fin 256) = c := by
        apply Fin.ext
        have : 16 * (c.val / 16) + c.val % 16 = c.val := Nat.div_add_mod c.val 16
        rw [this]
        simp [Fin.ofNat, Nat.mod_eq_of_lt c.isLt]
      simp only [if_true, List.cons_append, List.nil_append]
      rw [QueryUnescape_cons_percent, h1, h2]
      cases QueryUnescape rest <;> simp [hc]
    | false =>
      have h3 := not_shouldEscape_not_special c he
      simp only [Bool.false_eq_true, if_false, List.cons_append, List.nil_append]
      exact QueryUnescape_cons_other c rest h3.1 h3.2.1

theorem QueryUnescape_QueryEscape (s : GoString) : QueryUnescape (QueryEscape s) = some s := by
  induction s with
  | nil => rfl
  | cons c rest ih =>
    rw [QueryEscape, QueryUnescape_escapeByte, ih]
    rfl

/-! ## Splitting a query string -/

theorem splitOn_ne_nil (sep : Fin 256) (s : GoString) : splitOn sep s ≠ [] := by
  cases s with
  | nil => simp [splitOn]
  | cons c rest =>
    unfold splitOn
    by_cases h : c = sep
    · simp [h]
    · simp only [h, if_false]
      split <;> simp

theorem splitOn_of_not_mem (sep : Fin 256) (s : GoString) (h : sep ∉ s) :
    splitOn sep s = [s] := by
  induction s with
  | nil => rfl
  | cons c rest ih =>
    simp only [List.mem_cons, not_or] at h
    have hne : ¬ c = sep := fun e => h.1 e.symm
    simp [splitOn, hne, ih h.2]

theorem splitOn_append (sep : Fin 256) (a rest : GoString) (h : sep ∉ a) :
    splitOn sep (a ++ sep :: rest) = a :: splitOn sep rest := by
  induction a with
  | nil => simp [splitOn]
  | cons c a ih =>
    simp only [List.mem_cons, not_or] at h
    have hne : ¬ c = sep := fun e => h.1 e.symm
    simp [splitOn, hne, ih h.2]

theorem cut_append (sep : Fin 256) (a rest : GoString) (h : sep ∉ a) :
    cut sep (a ++ sep :: rest) = (a, rest) := by
  induction a with
  | nil => simp [cut]
  | cons c a ih =>
    simp only [List.mem_cons, not_or] at h
    have hne : ¬ c = sep := fun e => h.1 e.symm
    simp [cut, hne, ih h.2]

theorem entryText_not_mem (p : GoString × GoString) (b : Fin 256) (hb : b = 38 ∨ b = 59) :
    b ∉ entryText p := by
  have hb2 : b = 38 ∨ b = 61 ∨ b = 59 := by tauto
  have hne : b ≠ 61 := by rcases hb with rfl | rfl <;> decide
  simp only [entryText, List.mem_append, List.mem_singleton, not_or]
  exact ⟨⟨QueryEscape_not_special _ b hb2, hne⟩, QueryEscape_not_special _ b hb2⟩

theorem cut_entryText (p : GoString × GoString) :
    cut 61 (entryText p) = (QueryEscape p.1, QueryEscape p.2) := by
  unfold entryText
  rw [List.append_assoc]
  exact cut_append 61 _ _ (QueryEscape_not_special _ 61 (by tauto))

theorem splitOn_flatMap (ps : List (GoString × GoString)) (a : GoString) (h : (38 : Fin 256) ∉ a) :
    splitOn 38 (a ++ ps.flatMap (fun q => 38 :: entryText q)) = a :: ps.map entryText := by
  induction ps generalizing a with
  | nil => simpa using splitOn_of_not_mem 38 a h
  | cons p rest ih =>
    rw [List.flatMap_cons, List.cons_append, splitOn_append 38 a _ h,
      ih _ (entryText_not_mem p 38 (Or.inl rfl))]
    rfl

theorem splitOn_joinEntries (p : GoString × GoString) (ps : List (GoString × GoString)) :
    splitOn 38 (joinEntries (p :: ps)) = (p :: ps).map entryText := by
  rw [joinEntries, splitOn_flatMap ps _ (entryText_not_mem p 38 (Or.inl rfl))]
  rfl

theorem entries_joinEntries (ps : List (GoString × GoString)) :
    entries (joinEntries ps) = ps.map (fun p => (QueryEscape p.1, QueryEscape p.2)) := by
  unfold entries
  cases ps with
  | nil => simp [joinEntries, splitOn]
  | cons p rest =>
    rw [splitOn_joinEntries]
    have hf : ((p :: rest).map entryText).filter (fun seg => decide (seg ≠ []))
        = (p :: rest).map entryText := by
      rw [List.filter_eq_self]
      intro seg hseg
      obtain ⟨q, _, rfl⟩ := List.mem_map.1 hseg
      simpa using entryText_ne_nil q
    rw [hf, List.map_map]
    apply List.map_congr_left
    intro q _
    exact cut_entryText q

/-! ## `ParseQuery` on an encoded string -/

theorem parseSegment_entryText (acc : Values × Bool) (p : GoString × GoString) :
    parseSegment acc (entryText p) = (Values.Add acc.1 p.1 p.2, acc.2) := by
  unfold parseSegment
  have h59 : (entryText p).contains 59 = false := by
    have := entryText_not_mem p 59 (Or.inr rfl)
    simp [this]
  rw [h59]
  simp only [Bool.false_eq_true, if_false, entryText_ne_nil p, cut_entryText,
    QueryUnescape_QueryEscape]

theorem foldl_parseSegment (ps : List (GoString × GoString)) (acc : Values × Bool) :
    (ps.map entryText).foldl parseSegment acc
      = (ps.foldl (fun v p => Values.Add v p.1 p.2) acc.1, acc.2) := by
  induction ps generalizing acc with
  | nil => rfl
  | cons p rest ih => rw [List.map_cons, List.foldl_cons, parseSegment_entryText, ih]; rfl

theorem ParseQuery_joinEntries (ps : List (GoString × GoString))
    (hn : (ps.map Prod.fst).Nodup) :
    ParseQuery (joinEntries ps) = (ps.map single, false) := by
  unfold ParseQuery
  cases ps with
  | nil => simp [joinEntries, splitOn, parseSegment]
  | cons p rest =>
    rw [splitOn_joinEntries, foldl_parseSegment, foldl_Add_nodup _ _ (by simpa using hn)]
    simp
/-! ## The query string of a filter that passes validation -/

theorem queryMapping_perm_sortedMapping (f : SearchMoviesFilters) :
    f.queryMapping.Perm (sortedMapping f) := by
  have h1 : f.queryMapping = [0, 1, 2, 3, 4, 5, 6, 7, 8].map (fieldEntry f) := rfl
  have h2 : sortedMapping f = [5, 0, 3, 7, 1, 2, 4, 6, 8].map (fieldEntry f) := rfl
  rw [h1, h2]
  exact List.Perm.map _ (by decide)

theorem sortedMapping_keys (f : SearchMoviesFilters) :
    (sortedMapping f).map Prod.fst = sortedKeyNames := rfl

theorem sortedKeyNames_ascending :
    sortedKeyNames.Pairwise (fun a b => strLess a b = true) := by
  decide

theorem sortedKeyNames_nodup : sortedKeyNames.Nodup := by
  decide

theorem sortedKeyNames_escape : ∀ k ∈ sortedKeyNames, QueryEscape k = k := by
  decide

theorem filterMap_queryEntry_keys (l : List (GoString × Value)) :
    ((l.filterMap queryEntry).map Prod.fst).Sublist (l.map Prod.fst) := by
  induction l with
  | nil => simp
  | cons e rest ih =>
    cases h : queryEntry e with
    | none =>
      rw [List.filterMap_cons_none h, List.map_cons]
      exact ih.trans (List.sublist_cons_self _ _)
    | some p =>
      rw [List.filterMap_cons_some h, List.map_cons, List.map_cons, queryEntry_fst h]
      exact ih.cons₂ _

theorem filterMap_sortedMapping (f : SearchMoviesFilters) :
    (sortedMapping f).filterMap queryEntry = expectedPairs f := by
  have hc : ∀ (e : GoString × Value) (l : List (GoString × Value)),
      (e :: l).filterMap queryEntry = (queryEntry e).toList ++ l.filterMap queryEntry := by
    intro e l
    cases h : queryEntry e with
    | none => rw [List.filterMap_cons_none h]; rfl
    | some p => rw [List.filterMap_cons_some h]; rfl
  have hi : ∀ (k : GoString) (v : Int), (queryEntry (k, .int v)).toList
      = if v ≠ 0 then [(k, fmtD v)] else [] := by
    intro k v; unfold queryEntry; by_cases h : v = 0 <;> simp [h]
  have hb : ∀ (k : GoString) (v : Bool), (queryEntry (k, .bool v)).toList
      = if v = true then [(k, lit "true")] else [] := by
    intro k v; unfold queryEntry; cases v <;> simp
  have hs : ∀ (k : GoString) (v : GoString), (queryEntry (k, .string v)).toList
      = if v ≠ [] then [(k, v)] else [] := by
    intro k v; unfold queryEntry; by_cases h : v = [] <;> simp [h]
  have hq : ∀ (k : GoString) (v : GoString), (queryEntry (k, .quality v)).toList
      = if v ≠ [] then [(k, v)] else [] := by
    intro k v; unfold queryEntry; by_cases h : v = [] <;> simp [h]
  have hg : ∀ (k : GoString) (v : GoString), (queryEntry (k, .genre v)).toList
      = if v ≠ [] then [(k, v)] else [] := by
    intro k v; unfold queryEntry; by_cases h : v = [] <;> simp [h]
  have hsb : ∀ (k : GoString) (v : GoString), (queryEntry (k, .sortBy v)).toList
      = if v ≠ [] then [(k, v)] else [] := by
    intro k v; unfold queryEntry; by_cases h : v = [] <;> simp [h]
  have ho : ∀ (k : GoString) (v : GoString), (queryEntry (k, .orderBy v)).toList
      = if v ≠ [] then [(k, v)] else [] := by
    intro k v; unfold queryEntry; by_cases h : v = [] <;> simp [h]
  unfold sortedMapping expectedPairs
  simp only [hc, hi, hb, hs, hq, hg, hsb, ho, List.filterMap_nil, List.append_nil,
    List.append_assoc]

theorem expectedPairs_keys_sublist (f : SearchMoviesFilters) :
    ((expectedPairs f).map Prod.fst).Sublist sortedKeyNames := by
  rw [← filterMap_sortedMapping, ← sortedMapping_keys f]
  exact filterMap_queryEntry_keys _

theorem expectedPairs_keys_nodup (f : SearchMoviesFilters) :
    ((expectedPairs f).map Prod.fst).Nodup :=
  (expectedPairs_keys_sublist f).nodup sortedKeyNames_nodup

theorem expectedPairs_keys_ascending (f : SearchMoviesFilters) :
    ((expectedPairs f).map Prod.fst).Pairwise (fun a b => strLess a b = true) :=
  sortedKeyNames_ascending.sublist (expectedPairs_keys_sublist f)

theorem expectedPairs_keys_sorted (f : SearchMoviesFilters) :
    ((expectedPairs f).map Prod.fst).Sorted strLe :=
  (expectedPairs_keys_ascending f).imp (fun h => strLess_asymm _ _ h)

/-- The query string of a filter that passes validation, whatever the order in
which the field map is visited. -/
theorem getQueryStringIn_eq (f : SearchMoviesFilters) (hv : f.validateFilters = none)
    (order : List (GoString × Value)) (hp : order.Perm f.queryMapping) :
    f.getQueryStringIn order = (joinEntries (expectedPairs f), none) := by
  have hperm : (order.filterMap queryEntry).Perm (expectedPairs f) := by
    rw [← filterMap_sortedMapping]
    exact (hp.trans (queryMapping_perm_sortedMapping f)).filterMap _
  have hn : ((order.filterMap queryEntry).map Prod.fst).Nodup :=
    (hperm.map Prod.fst).nodup_iff.2 (expectedPairs_keys_nodup f)
  unfold SearchMoviesFilters.getQueryStringIn
  rw [hv]
  simp only
  rw [foldl_addQuery, foldl_Add_nodup _ _ (by simpa using hn), List.nil_append,
    Encode_single_perm hperm hn,
    Encode_single_sorted _ (expectedPairs_keys_nodup f) (expectedPairs_keys_sorted f)]

theorem getQueryString_eq (f : SearchMoviesFilters) (hv : f.validateFilters = none) :
    f.getQueryString = (joinEntries (expectedPairs f), none) :=
  getQueryStringIn_eq f hv _ (List.Perm.refl _)

theorem entries_keys_expectedPairs (f : SearchMoviesFilters) :
    (entries (joinEntries (expectedPairs f))).map Prod.fst = (expectedPairs f).map Prod.fst := by
  rw [entries_joinEntries, List.map_map]
  apply List.map_congr_left
  intro p hp
  exact sortedKeyNames_escape _
    ((expectedPairs_keys_sublist f).subset (List.mem_map_of_mem Prod.fst hp))

theorem or_reorder (a b c d e g h i j : Prop) :
    (g ∨ a ∨ d ∨ i ∨ b ∨ c ∨ e ∨ h ∨ j) ↔ (a ∨ b ∨ c ∨ d ∨ e ∨ g ∨ h ∨ i ∨ j) := by
  tauto

theorem mem_expectedPairs (f : SearchMoviesFilters) (k v : GoString) :
    (k, v) ∈ expectedPairs f ↔
      (k = lit "limit" ∧ f.Limit ≠ 0 ∧ v = fmtD f.Limit) ∨
      (k = lit "page" ∧ f.Page ≠ 0 ∧ v = fmtD f.Page) ∨
      (k = lit "quality" ∧ f.Quality ≠ [] ∧ v = f.Quality) ∨
      (k = lit "minimum_rating" ∧ f.MinimumRating ≠ 0 ∧ v = fmtD f.MinimumRating) ∨
      (k = lit "query_term" ∧ f.QueryTerm ≠ [] ∧ v = f.QueryTerm) ∨
      (k = lit "genre" ∧ f.Genre ≠ [] ∧ v = f.Genre) ∨
      (k = lit "sort_by" ∧ f.SortBy ≠ [] ∧ v = f.SortBy) ∨
      (k = lit "order_by" ∧ f.OrderBy ≠ [] ∧ v = f.OrderBy) ∨
      (k = lit "with_rt_ratings" ∧ f.WithRTRatings = true ∧ v = lit "true") := by
  have hm : ∀ (c : Prop) [Decidable c] (a b : GoString),
      (k, v) ∈ (if c then [(a, b)] else []) ↔ k = a ∧ c ∧ v = b := by
    intro c _ a b
    by_cases h : c <;> simp [h]
  unfold expectedPairs
  simp only [List.mem_append, hm, or_assoc]
  exact or_reorder _ _ _ _ _ _ _ _ _

theorem mem_expectedPairs_keys (f : SearchMoviesFilters) (k : GoString) :
    k ∈ (expectedPairs f).map Prod.fst ↔
      (k = lit "limit" ∧ f.Limit ≠ 0) ∨
      (k = lit "page" ∧ f.Page ≠ 0) ∨
      (k = lit "quality" ∧ f.Quality ≠ []) ∨
      (k = lit "minimum_rating" ∧ f.MinimumRating ≠ 0) ∨
      (k = lit "query_term" ∧ f.QueryTerm ≠ []) ∨
      (k = lit "genre" ∧ f.Genre ≠ []) ∨
      (k = lit "sort_by" ∧ f.SortBy ≠ []) ∨
      (k = lit "order_by" ∧ f.OrderBy ≠ []) ∨
      (k = lit "with_rt_ratings" ∧ f.WithRTRatings = true) := by
  have hm : ∀ (c : Prop) [Decidable c] (a b : GoString),
      k ∈ (if c then [(a, b)] else []).map Prod.fst ↔ k = a ∧ c := by
    intro c _ a b
    by_cases h : c <;> simp [h]
  unfold expectedPairs
  simp only [List.map_append, List.mem_append, hm, or_assoc]
  exact or_reorder _ _ _ _ _ _ _ _ _
/-! ## Claims on validation -/

/-- C1: a filter whose Quality is not one of the seven quality constants, or
whose Genre is not one of the 27 genre constants, or whose OrderBy is not asc
or desc, is rejected by `validateFilters`, whatever the other fields hold. The
empty string is a member of none of the three vocabularies, and the all-zero
value `SearchMoviesFilters{}` is rejected. -/
theorem validateFilters_rejects_enumerated (f : SearchMoviesFilters)
    (h : f.Quality ∉ qualityConstants ∨ f.Genre ∉ genreConstants ∨
      f.OrderBy ∉ orderByConstants) :
    f.validateFilters ≠ none ∧
    (qualityConstants = [lit "all", lit "480p", lit "720p", lit "1080p", lit "1080p.x265",
        lit "2160p", lit "3D"] ∧
      genreConstants.length = 27 ∧ orderByConstants = [lit "asc", lit "desc"]) ∧
    (([] : GoString) ∉ qualityConstants ∧ ([] : GoString) ∉ genreConstants ∧
      ([] : GoString) ∉ orderByConstants) ∧
    zeroFilters.validateFilters ≠ none := by
  refine ⟨?_, ⟨rfl, rfl, rfl⟩, ⟨nil_not_mem_qualityConstants, nil_not_mem_genreConstants,
    nil_not_mem_orderByConstants⟩, by decide⟩
  intro hn
  rw [validateFilters_eq_none] at hn
  obtain ⟨_, _, hq, _, hg, _, ho⟩ := hn
  rcases h with h | h | h
  · exact h hq
  · exact h hg
  · exact h ho

/-- Witness of C1: quality `bogus`, every other field as in the valid test
filters. -/
theorem validateFilters_rejects_enumerated_witness :
    ({ validSearchFilters with Quality := lit "bogus" } : SearchMoviesFilters).Quality
        ∉ qualityConstants ∧
    ({ validSearchFilters with Quality := lit "bogus" } : SearchMoviesFilters).validateFilters
        ≠ none :=
  ⟨by decide, (validateFilters_rejects_enumerated
    { validSearchFilters with Quality := lit "bogus" } (Or.inl (by decide))).1⟩

/-- C2: a filter with Limit below 0 or above 50, or with MinimumRating below 0
or above 9, is rejected by `validateFilters`, whatever the other fields hold. -/
theorem validateFilters_rejects_out_of_range (f : SearchMoviesFilters)
    (h : f.Limit < 0 ∨ f.Limit > 50 ∨ f.MinimumRating < 0 ∨ f.MinimumRating > 9) :
    f.validateFilters ≠ none := by
  intro hn
  rw [validateFilters_eq_none] at hn
  obtain ⟨⟨_, _⟩, _, _, ⟨_, _⟩, _⟩ := hn
  omega

/-- Witness of C2: Limit 51, every other field as in the valid test filters. -/
theorem validateFilters_rejects_out_of_range_witness :
    ({ validSearchFilters with Limit := 51 } : SearchMoviesFilters).Limit > 50 ∧
    ({ validSearchFilters with Limit := 51 } : SearchMoviesFilters).validateFilters ≠ none :=
  ⟨by decide, validateFilters_rejects_out_of_range { validSearchFilters with Limit := 51 }
    (Or.inr (Or.inl (by decide)))⟩

/-- C3, the code at the failing input: with Page 0 and every other field valid,
`validateFilters` returns nil (the rule `Min(1)` is skipped on the zero value),
while Page -1 is rejected with the error of `Min(1)` on `page`. -/
theorem validateFilters_accepts_page_zero :
    ({ validSearchFilters with Page := 0 } : SearchMoviesFilters).validateFilters = none ∧
    ({ validSearchFilters with Page := -1 } : SearchMoviesFilters).validateFilters
      = some [(lit "page", .ErrMinGreaterEqualThanRequired 1)] := by
  decide

/-- C4, the code at the failing input: with SortBy empty and every other field
valid, `validateFilters` returns nil (the only rule on SortBy is `In`, which is
skipped on the empty string; `Required` is an element of its list, not a
rule), while a non-empty SortBy outside the eight sort keys is rejected. -/
theorem validateFilters_accepts_empty_sortBy :
    ({ validSearchFilters with SortBy := [] } : SearchMoviesFilters).validateFilters = none ∧
    ({ validSearchFilters with SortBy := lit "invalid" } : SearchMoviesFilters).validateFilters
      = some [(lit "sort_by", .ErrInInvalid)] := by
  decide

/-- C5: a filter with 0 <= Limit <= 50, Page >= 1, 0 <= MinimumRating <= 9,
Quality, Genre, SortBy and OrderBy each in its vocabulary (any QueryTerm, any
WithRTRatings) passes `validateFilters`, and `getQueryString` returns a query
string with a nil error, in whatever order the field map is visited. -/
theorem valid_filters_accepted (f : SearchMoviesFilters)
    (hl : 0 ≤ f.Limit ∧ f.Limit ≤ 50) (hp : 1 ≤ f.Page)
    (hm : 0 ≤ f.MinimumRating ∧ f.MinimumRating ≤ 9)
    (hq : f.Quality ∈ qualityConstants) (hg : f.Genre ∈ genreConstants)
    (hs : f.SortBy ∈ sortByConstants) (ho : f.OrderBy ∈ orderByConstants) :
    f.validateFilters = none ∧ (∃ s, f.getQueryString = (s, none)) ∧
    ∀ order, ∃ s, f.getQueryStringIn order = (s, none) := by
  have hv : f.validateFilters = none :=
    (validateFilters_eq_none f).2 ⟨hl, Or.inr hp, hq, hm, hg, Or.inr hs, ho⟩
  have key : ∀ order, f.getQueryStringIn order
      = (Values.Encode (order.foldl addQuery []), none) := by
    intro order
    simp only [SearchMoviesFilters.getQueryStringIn, hv]
  exact ⟨hv, ⟨_, key _⟩, fun order => ⟨_, key order⟩⟩

/-- Witness of C5: the bounds themselves, Limit 50 and MinimumRating 0. -/
theorem valid_filters_accepted_witness :
    ({ validSearchFilters with Limit := 50, MinimumRating := 0 } :
        SearchMoviesFilters).validateFilters = none ∧
    ∃ s, ({ validSearchFilters with Limit := 50, MinimumRating := 0 } :
        SearchMoviesFilters).getQueryString = (s, none) :=
  have h := valid_filters_accepted { validSearchFilters with Limit := 50, MinimumRating := 0 }
    (by decide) (by decide) (by decide) (by decide) (by decide) (by decide) (by decide)
  ⟨h.1, h.2.1⟩

/-- C6: `getQueryString` returns a non-nil error exactly when `validateFilters`
does; the error is then the validation error itself and the string is empty.
This holds in whatever order the field map is visited. -/
theorem getQueryString_error_iff (f : SearchMoviesFilters) (order : List (GoString × Value)) :
    ((f.getQueryStringIn order).2 ≠ none ↔ f.validateFilters ≠ none) ∧
    (f.getQueryString.2 ≠ none ↔ f.validateFilters ≠ none) ∧
    (∀ err, f.validateFilters = some err →
      f.getQueryStringIn order = ([], some err) ∧ f.getQueryString = ([], some err)) := by
  unfold SearchMoviesFilters.getQueryString SearchMoviesFilters.getQueryStringIn
  cases h : f.validateFilters with
  | none => simp
  | some e => simp

/-- Witness of C6: Limit 51, where validation fails on `limit`. -/
theorem getQueryString_error_iff_witness :
    ({ validSearchFilters with Limit := 51 } : SearchMoviesFilters).validateFilters
      = some [(lit "limit", .ErrMaxLessEqualThanRequired 50)] ∧
    ({ validSearchFilters with Limit := 51 } : SearchMoviesFilters).getQueryString
      = ([], some [(lit "limit", .ErrMaxLessEqualThanRequired 50)]) :=
  ⟨by decide, ((getQueryString_error_iff { validSearchFilters with Limit := 51 } []).2.2
    _ (by decide)).2⟩

/-! ## Claims on the query string -/

/-- C7: for a filter that passes validation, the query string returned by
`getQueryString` (in whatever order the field map is visited) holds no key
twice, and holds a key exactly when it is one of limit, page, quality,
minimum_rating, query_term, genre, sort_by, order_by, with_rt_ratings and the
field of that key is not at its zero value (0, the empty string, false). -/
theorem getQueryString_keys (f : SearchMoviesFilters) (hv : f.validateFilters = none)
    (order : List (GoString × Value)) (hp : order.Perm f.queryMapping) :
    ((entries (f.getQueryStringIn order).1).map Prod.fst).Nodup ∧
    ∀ k, k ∈ (entries (f.getQueryStringIn order).1).map Prod.fst ↔
      (k = lit "limit" ∧ f.Limit ≠ 0) ∨
      (k = lit "page" ∧ f.Page ≠ 0) ∨
      (k = lit "quality" ∧ f.Quality ≠ []) ∨
      (k = lit "minimum_rating" ∧ f.MinimumRating ≠ 0) ∨
      (k = lit "query_term" ∧ f.QueryTerm ≠ []) ∨
      (k = lit "genre" ∧ f.Genre ≠ []) ∨
      (k = lit "sort_by" ∧ f.SortBy ≠ []) ∨
      (k = lit "order_by" ∧ f.OrderBy ≠ []) ∨
      (k = lit "with_rt_ratings" ∧ f.WithRTRatings = true) := by
  rw [getQueryStringIn_eq f hv order hp]
  simp only
  rw [entries_keys_expectedPairs]
  exact ⟨expectedPairs_keys_nodup f, mem_expectedPairs_keys f⟩

set_option maxRecDepth 100000 in
/-- Witness of C7: the valid test filters, the field map visited in source
order; `with_rt_ratings` is false there and its key is absent. -/
theorem getQueryString_keys_witness :
    validSearchFilters.validateFilters = none ∧
    (entries validSearchFilters.getQueryString.1).map Prod.fst
      = [lit "genre", lit "limit", lit "minimum_rating", lit "order_by", lit "page",
         lit "quality", lit "query_term", lit "sort_by"] ∧
    ((entries (validSearchFilters.getQueryStringIn validSearchFilters.queryMapping).1).map
      Prod.fst).Nodup :=
  ⟨by decide, by decide,
    (getQueryString_keys validSearchFilters (by decide) _ (List.Perm.refl _)).1⟩

/-- C8: round trip. For a filter that passes validation, `url.ParseQuery` on
the string returned by `getQueryString` (in whatever order the field map is
visited) reports no error and yields one value per key, the pairs being
exactly those of the fields that are not at their zero value: the decimal
rendering of Limit, Page and MinimumRating, the string of Quality, Genre,
SortBy and OrderBy, `true` for WithRTRatings, and the QueryTerm byte for byte,
whatever bytes it holds. -/
theorem getQueryString_roundtrip (f : SearchMoviesFilters) (hv : f.validateFilters = none)
    (order : List (GoString × Value)) (hp : order.Perm f.queryMapping) :
    ParseQuery (f.getQueryStringIn order).1 = ((expectedPairs f).map single, false) ∧
    (∀ k v, (∃ vs, (k, vs) ∈ (ParseQuery (f.getQueryStringIn order).1).1 ∧ v ∈ vs) ↔
      (k, v) ∈ expectedPairs f) ∧
    (∀ k v, (k, v) ∈ expectedPairs f ↔
      (k = lit "limit" ∧ f.Limit ≠ 0 ∧ v = fmtD f.Limit) ∨
      (k = lit "page" ∧ f.Page ≠ 0 ∧ v = fmtD f.Page) ∨
      (k = lit "quality" ∧ f.Quality ≠ [] ∧ v = f.Quality) ∨
      (k = lit "minimum_rating" ∧ f.MinimumRating ≠ 0 ∧ v = fmtD f.MinimumRating) ∨
      (k = lit "query_term" ∧ f.QueryTerm ≠ [] ∧ v = f.QueryTerm) ∨
      (k = lit "genre" ∧ f.Genre ≠ [] ∧ v = f.Genre) ∨
      (k = lit "sort_by" ∧ f.SortBy ≠ [] ∧ v = f.SortBy) ∨
      (k = lit "order_by" ∧ f.OrderBy ≠ [] ∧ v = f.OrderBy) ∨
      (k = lit "with_rt_ratings" ∧ f.WithRTRatings = true ∧ v = lit "true")) := by
  have h1 : ParseQuery (f.getQueryStringIn order).1 = ((expectedPairs f).map single, false) := by
    rw [getQueryStringIn_eq f hv order hp]
    exact ParseQuery_joinEntries _ (expectedPairs_keys_nodup f)
  refine ⟨h1, ?_, mem_expectedPairs f⟩
  intro k v
  rw [h1]
  constructor
  · rintro ⟨vs, hm, hvs⟩
    obtain ⟨p, hp2, he⟩ := List.mem_map.1 hm
    simp only [single, Prod.mk.injEq] at he
    obtain ⟨rfl, rfl⟩ := he
    rw [List.mem_singleton] at hvs
    subst hvs
    exact hp2
  · intro hm
    exact ⟨[v], List.mem_map.2 ⟨(k, v), hm, rfl⟩, List.mem_singleton.2 rfl⟩

set_option maxRecDepth 100000 in
/-- Witness of C8: a query term holding `&`, `=`, `+`, `%` and a space, the
field map visited in reverse source order. -/
theorem getQueryString_roundtrip_witness :
    awkwardFilters.validateFilters = none ∧
    awkwardFilters.queryMapping.reverse.Perm awkwardFilters.queryMapping ∧
    (awkwardFilters.getQueryStringIn awkwardFilters.queryMapping.reverse).1
      = lit ("genre=Animation&limit=10&minimum_rating=9&order_by=asc&page=1&quality=1080p"
          ++ "&query_term=a%26b%3Dc%2Bd%25e+f&sort_by=download_count&with_rt_ratings=true") ∧
    ParseQuery (awkwardFilters.getQueryStringIn awkwardFilters.queryMapping.reverse).1
      = ((expectedPairs awkwardFilters).map single, false) ∧
    (lit "query_term", lit "a&b=c+d%e f") ∈ expectedPairs awkwardFilters :=
  ⟨by decide, List.reverse_perm _, by decide,
    (getQueryString_roundtrip awkwardFilters (by decide) _ (List.reverse_perm _)).1,
    by decide⟩

/-- C9, as the code has it: on the all-zero filters `getQueryString` returns
the empty string together with the validation error, which reports `quality`,
`genre` and `order_by` as blank. -/
theorem getQueryString_zeroFilters :
    zeroFilters.getQueryString =
      ([], some [(lit "quality", .ErrRequired), (lit "genre", .ErrRequired),
        (lit "order_by", .ErrRequired)]) := by
  decide

/-- C9 as stated fails: on the all-zero filters `getQueryString` does not
return the empty string with a nil error. -/
theorem getQueryString_zeroFilters_not_nil :
    zeroFilters.getQueryString ≠ ([], none) := by
  decide

/-- C10: order stability. For a filter that passes validation, the string
returned by `getQueryString` is the same for every order in which the field
map `queryMapping` is visited, and its `key=value` entries appear in strictly
ascending order of key: the keys are those of genre, limit, minimum_rating,
order_by, page, quality, query_term, sort_by, with_rt_ratings that are
present, in this order. -/
theorem getQueryString_order_stable (f : SearchMoviesFilters) (hv : f.validateFilters = none)
    (order : List (GoString × Value)) (hp : order.Perm f.queryMapping) :
    f.getQueryStringIn order = f.getQueryString ∧
    ((entries (f.getQueryStringIn order).1).map Prod.fst).Pairwise
      (fun a b => strLess a b = true) ∧
    ((entries (f.getQueryStringIn order).1).map Prod.fst).Sublist
      [lit "genre", lit "limit", lit "minimum_rating", lit "order_by", lit "page",
       lit "quality", lit "query_term", lit "sort_by", lit "with_rt_ratings"] := by
  rw [getQueryStringIn_eq f hv order hp, getQueryString_eq f hv]
  simp only
  rw [entries_keys_expectedPairs]
  exact ⟨trivial, expectedPairs_keys_ascending f, expectedPairs_keys_sublist f⟩

set_option maxRecDepth 100000 in
/-- Witness of C10: the valid test filters, the field map visited in reverse
source order. -/
theorem getQueryString_order_stable_witness :
    validSearchFilters.validateFilters = none ∧
    validSearchFilters.queryMapping.reverse.Perm validSearchFilters.queryMapping ∧
    validSearchFilters.getQueryStringIn validSearchFilters.queryMapping.reverse
      = validSearchFilters.getQueryString ∧
    validSearchFilters.getQueryString.1
      = lit ("genre=Animation&limit=10&minimum_rating=9&order_by=asc&page=1&quality=1080p"
          ++ "&query_term=Oppenheimer+%282023%29&sort_by=download_count") :=
  ⟨by decide, List.reverse_perm _,
    (getQueryString_order_stable validSearchFilters (by decide) _ (List.reverse_perm _)).1,
    by decide⟩
/-! ## Claims on the defaults, on the fields that never fail, on the error -/

/-- C11: for every query string q, the empty one included,
`DefaultSearchMoviesFilters(q)` has Limit 20, Page 1, Quality all,
MinimumRating 0, QueryTerm q, Genre all, SortBy date_added, OrderBy desc,
WithRTRatings false, and passes `validateFilters`. -/
theorem DefaultSearchMoviesFilters_valid (q : GoString) :
    DefaultSearchMoviesFilters q =
      { Limit := 20, Page := 1, Quality := lit "all", MinimumRating := 0, QueryTerm := q,
        Genre := lit "all", SortBy := lit "date_added", OrderBy := lit "desc",
        WithRTRatings := false } ∧
    (DefaultSearchMoviesFilters q).validateFilters = none := by
  refine ⟨rfl, ?_⟩
  rw [validateFilters_eq_none]
  exact ⟨(by decide : (0 : Int) ≤ 20 ∧ (20 : Int) ≤ 50),
    (by decide : (1 : Int) = 0 ∨ (1 : Int) ≤ 1),
    (by decide : QualityAll ∈ qualityConstants),
    (by decide : (0 : Int) ≤ 0 ∧ (0 : Int) ≤ 9),
    (by decide : GenreAll ∈ genreConstants),
    (by decide : SortByDateAdded = [] ∨ SortByDateAdded ∈ sortByConstants),
    (by decide : OrderByDesc ∈ orderByConstants)⟩

/-- C12: two filters that agree on Limit, Page, Quality, MinimumRating, Genre,
SortBy and OrderBy get the same result from `validateFilters`, whatever their
WithRTRatings and QueryTerm: both pass or both fail (with the same error).
On the valid test filters every QueryTerm and both values of WithRTRatings
pass. -/
theorem validateFilters_ignores_term_and_flag (f g : SearchMoviesFilters)
    (hl : f.Limit = g.Limit) (hp : f.Page = g.Page) (hq : f.Quality = g.Quality)
    (hm : f.MinimumRating = g.MinimumRating) (hg : f.Genre = g.Genre)
    (hs : f.SortBy = g.SortBy) (ho : f.OrderBy = g.OrderBy) :
    f.validateFilters = g.validateFilters ∧
    (f.validateFilters = none ↔ g.validateFilters = none) ∧
    (∀ (q : GoString) (b : Bool),
      ({ validSearchFilters with QueryTerm := q, WithRTRatings := b } :
        SearchMoviesFilters).validateFilters = none) := by
  have h : f.validateFilters = g.validateFilters := by
    unfold SearchMoviesFilters.validateFilters ValidateStruct
    have hc : collectErrors f.fieldRules = collectErrors g.fieldRules := by
      simp only [SearchMoviesFilters.fieldRules, collectErrors, validate_withRTRatings,
        hl, hp, hq, hm, hg, hs, ho]
    rw [hc]
  refine ⟨h, by rw [h], ?_⟩
  intro q b
  rw [validateFilters_eq_none]
  exact ⟨(by decide : 0 ≤ validSearchFilters.Limit ∧ validSearchFilters.Limit ≤ 50),
    (by decide : validSearchFilters.Page = 0 ∨ 1 ≤ validSearchFilters.Page),
    (by decide : validSearchFilters.Quality ∈ qualityConstants),
    (by decide : 0 ≤ validSearchFilters.MinimumRating ∧ validSearchFilters.MinimumRating ≤ 9),
    (by decide : validSearchFilters.Genre ∈ genreConstants),
    (by decide : validSearchFilters.SortBy = [] ∨ validSearchFilters.SortBy ∈ sortByConstants),
    (by decide : validSearchFilters.OrderBy ∈ orderByConstants)⟩

/-- Witness of C12: the valid test filters against the same filters with
another query term and the flag set. -/
theorem validateFilters_ignores_term_and_flag_witness :
    validSearchFilters.validateFilters
      = ({ validSearchFilters with QueryTerm := [], WithRTRatings := true } :
          SearchMoviesFilters).validateFilters :=
  (validateFilters_ignores_term_and_flag validSearchFilters
    { validSearchFilters with QueryTerm := [], WithRTRatings := true }
    rfl rfl rfl rfl rfl rfl rfl).1

theorem collectErrors_names (fields : List FieldRules) :
    (collectErrors fields).map Prod.fst
      = (fields.filter (fun fr => (Validate fr.value fr.rules).isSome)).map FieldRules.name := by
  induction fields with
  | nil => rfl
  | cons fr rest ih =>
    cases h : Validate fr.value fr.rules with
    | none => simp [collectErrors, h, ih, List.filter_cons]
    | some err => simp [collectErrors, h, ih, List.filter_cons]

theorem collectErrors_mem (fields : List FieldRules) (name : GoString) (err : RuleError)
    (h : (name, err) ∈ collectErrors fields) :
    ∃ fr ∈ fields, fr.name = name ∧ Validate fr.value fr.rules = some err := by
  induction fields with
  | nil => simp [collectErrors] at h
  | cons fr rest ih =>
    cases hv : Validate fr.value fr.rules with
    | none =>
      simp only [collectErrors, hv] at h
      obtain ⟨fr2, hm, h2⟩ := ih h
      exact ⟨fr2, List.mem_cons_of_mem _ hm, h2⟩
    | some e =>
      simp only [collectErrors, hv, List.mem_cons, Prod.mk.injEq] at h
      rcases h with ⟨h1, h2⟩ | h
      · exact ⟨fr, List.mem_cons_self _ _, h1.symm, by rw [hv, h2]⟩
      · obtain ⟨fr2, hm, h2⟩ := ih h
        exact ⟨fr2, List.mem_cons_of_mem _ hm, h2⟩

/-- C13, as the code has it: the error of `validateFilters` is a map with one
entry for every field whose rules fail, the fields taken in declaration order
(limit, page, quality, minimum_rating, genre, sort_by, order_by,
with_rt_ratings); each entry carries the error of that field. It is never
empty, and it names all the failing fields, not only the first. -/
theorem validateFilters_error_names (f : SearchMoviesFilters) (errs : Errors)
    (h : f.validateFilters = some errs) :
    errs ≠ [] ∧
    errs.map Prod.fst
      = (f.fieldRules.filter (fun fr => (Validate fr.value fr.rules).isSome)).map
          FieldRules.name ∧
    (∀ name err, (name, err) ∈ errs →
      ∃ fr ∈ f.fieldRules, fr.name = name ∧ Validate fr.value fr.rules = some err) ∧
    f.fieldRules.map FieldRules.name
      = [lit "limit", lit "page", lit "quality", lit "minimum_rating", lit "genre",
         lit "sort_by", lit "order_by", lit "with_rt_ratings"] := by
  unfold SearchMoviesFilters.validateFilters ValidateStruct at h
  simp only at h
  split at h
  · rename_i hlen
    cases h
    refine ⟨?_, collectErrors_names _, fun name err hm => collectErrors_mem _ name err hm, rfl⟩
    intro hnil
    rw [hnil] at hlen
    simp at hlen
  · cases h

/-- Witness of C13: Limit -1 and Quality `invalid` at once; both fields are
named. -/
theorem validateFilters_error_names_witness :
    ({ validSearchFilters with Limit := -1, Quality := lit "invalid" } :
      SearchMoviesFilters).validateFilters
      = some [(lit "limit", .ErrMinGreaterEqualThanRequired 0),
          (lit "quality", .ErrInInvalid)] ∧
    ([(lit "limit", RuleError.ErrMinGreaterEqualThanRequired 0),
        (lit "quality", RuleError.ErrInInvalid)] : Errors) ≠ [] :=
  ⟨by decide, (validateFilters_error_names
    { validSearchFilters with Limit := -1, Quality := lit "invalid" } _ (by decide)).1⟩

/-- C13 as stated fails: with Limit -1 and Quality `invalid` at once the error
names `limit` and `quality`, not `limit` alone. -/
theorem validateFilters_error_names_two :
    (({ validSearchFilters with Limit := -1, Quality := lit "invalid" } :
      SearchMoviesFilters).validateFilters).map (fun errs => errs.map Prod.fst)
      = some [lit "limit", lit "quality"] ∧
    (({ validSearchFilters with Limit := -1, Quality := lit "invalid" } :
      SearchMoviesFilters).validateFilters).map (fun errs => errs.map Prod.fst)
      ≠ some [lit "limit"] := by
  decide

/-- C14: `validateFilters` and `getQueryString` leave the filters as they
were; when `getQueryString` succeeds, `validateFilters` succeeds; and a second
run on the same filters gives the result of the first, also when the second
run of `getQueryString` visits the field map in another order. -/
theorem validation_read_only_idempotent (f : SearchMoviesFilters)
    (order1 order2 : List (GoString × Value))
    (h1 : order1.Perm f.queryMapping) (h2 : order2.Perm f.queryMapping) :
    f.validateFiltersRun.1 = f ∧ (f.getQueryStringRun order1).1 = f ∧
    f.validateFiltersRun.2 = f.validateFilters ∧
    (f.getQueryStringRun order1).2 = f.getQueryStringIn order1 ∧
    ((f.getQueryStringIn order1).2 = none → f.validateFilters = none) ∧
    f.validateFiltersRun.1.validateFiltersRun = f.validateFiltersRun ∧
    (f.getQueryStringRun order1).1.getQueryStringRun order2 = f.getQueryStringRun order1 ∧
    f.getQueryStringIn order2 = f.getQueryStringIn order1 := by
  have hsame : f.getQueryStringIn order2 = f.getQueryStringIn order1 := by
    cases hv : f.validateFilters with
    | none => rw [getQueryStringIn_eq f hv order1 h1, getQueryStringIn_eq f hv order2 h2]
    | some err => simp only [SearchMoviesFilters.getQueryStringIn, hv]
  have hrun : ∀ order, f.getQueryStringRun order = (f, f.getQueryStringIn order) := by
    intro order
    unfold SearchMoviesFilters.getQueryStringRun SearchMoviesFilters.validateFiltersRun
      SearchMoviesFilters.getQueryStringIn
    cases f.validateFilters <;> rfl
  refine ⟨rfl, by rw [hrun], rfl, by rw [hrun], ?_, rfl, ?_, hsame⟩
  · intro hn
    unfold SearchMoviesFilters.getQueryStringIn at hn
    cases hv : f.validateFilters with
    | none => rfl
    | some err => rw [hv] at hn; cases hn
  · rw [hrun order1]
    simp only
    rw [hrun order2, hsame]

/-- Witness of C14: the valid test filters, visited in source order and then
in reverse source order. -/
theorem validation_read_only_idempotent_witness :
    validSearchFilters.queryMapping.Perm validSearchFilters.queryMapping ∧
    validSearchFilters.queryMapping.reverse.Perm validSearchFilters.queryMapping ∧
    validSearchFilters.getQueryStringIn validSearchFilters.queryMapping.reverse
      = validSearchFilters.getQueryStringIn validSearchFilters.queryMapping :=
  ⟨List.Perm.refl _, List.reverse_perm _,
    (validation_read_only_idempotent validSearchFilters _ _ (List.Perm.refl _)
      (List.reverse_perm _)).2.2.2.2.2.2.2⟩

/-! ## Claims on magnet links and on client construction -/

theorem TorrentMagnets_get?_set (m : TorrentMagnets) (k q : Quality) (v : GoString) :
    TorrentMagnets.get? (TorrentMagnets.set m k v) q
      = if k = q then some v else TorrentMagnets.get? m q := by
  induction m with
  | nil => simp [TorrentMagnets.set, TorrentMagnets.get?]
  | cons a rest ih =>
    obtain ⟨k1, v1⟩ := a
    by_cases h1 : k1 = k
    · subst h1
      by_cases h2 : k1 = q
      · simp [TorrentMagnets.set, TorrentMagnets.get?, h2]
      · simp [TorrentMagnets.set, TorrentMagnets.get?, h2]
    · by_cases h2 : k1 = q
      · subst h2
        have h3 : ¬ k = k1 := fun e => h1 e.symm
        simp [TorrentMagnets.set, TorrentMagnets.get?, h1, h3]
      · simp [TorrentMagnets.set, TorrentMagnets.get?, h1, h2, ih]

theorem TorrentMagnets_keys_set (m : TorrentMagnets) (k : Quality) (v : GoString) :
    (TorrentMagnets.set m k v).map Prod.fst
      = if k ∈ m.map Prod.fst then m.map Prod.fst else m.map Prod.fst ++ [k] := by
  induction m with
  | nil => simp [TorrentMagnets.set]
  | cons a rest ih =>
    obtain ⟨k1, v1⟩ := a
    by_cases h1 : k1 = k
    · subst h1
      simp [TorrentMagnets.set]
    · have h3 : ¬ k = k1 := fun e => h1 e.symm
      by_cases h2 : k ∈ rest.map Prod.fst
      · simp only [TorrentMagnets.set, h1, if_false, List.map_cons, ih, h2, if_true,
          List.mem_cons, or_true]
      · simp only [TorrentMagnets.set, h1, if_false, List.map_cons, ih, h2, List.mem_cons,
          h3, or_self, List.cons_append]

theorem TorrentMagnets_nodup_set (m : TorrentMagnets) (k : Quality) (v : GoString)
    (h : (m.map Prod.fst).Nodup) : ((TorrentMagnets.set m k v).map Prod.fst).Nodup := by
  rw [TorrentMagnets_keys_set]
  by_cases hk : k ∈ m.map Prod.fst
  · rw [if_pos hk]; exact h
  · rw [if_neg hk]
    exact List.Nodup.append h (List.nodup_singleton k) (by simpa using hk)

theorem TorrentMagnets_mem_keys_set (m : TorrentMagnets) (k q : Quality) (v : GoString) :
    q ∈ (TorrentMagnets.set m k v).map Prod.fst ↔ q = k ∨ q ∈ m.map Prod.fst := by
  rw [TorrentMagnets_keys_set]
  by_cases hk : k ∈ m.map Prod.fst
  · rw [if_pos hk]
    constructor
    · exact Or.inr
    · rintro (rfl | h)
      · exact hk
      · exact h
  · rw [if_neg hk, List.mem_append, List.mem_singleton]
    exact or_comm

theorem foldl_set_get? (magnet : Torrent → GoString) (ts : List Torrent)
    (acc : TorrentMagnets) (q : Quality) :
    TorrentMagnets.get?
        (ts.foldl (fun m t => TorrentMagnets.set m t.Quality (magnet t)) acc) q
      = match (ts.filter (fun t => decide (t.Quality = q))).getLast? with
        | some t => some (magnet t)
        | none => TorrentMagnets.get? acc q := by
  induction ts generalizing acc with
  | nil => rfl
  | cons t rest ih =>
    rw [List.foldl_cons, ih, TorrentMagnets_get?_set]
    by_cases hq : t.Quality = q
    · rw [List.filter_cons_of_pos (by simpa using hq), List.getLast?_cons, if_pos hq]
      cases (rest.filter (fun t => decide (t.Quality = q))).getLast? <;> rfl
    · rw [List.filter_cons_of_neg (by simpa using hq), if_neg hq]

theorem foldl_set_keys (magnet : Torrent → GoString) (ts : List Torrent)
    (acc : TorrentMagnets) (q : Quality) :
    q ∈ (ts.foldl (fun m t => TorrentMagnets.set m t.Quality (magnet t)) acc).map Prod.fst
      ↔ q ∈ acc.map Prod.fst ∨ ∃ t ∈ ts, t.Quality = q := by
  induction ts generalizing acc with
  | nil => simp
  | cons t rest ih =>
    rw [List.foldl_cons, ih, TorrentMagnets_mem_keys_set]
    constructor
    · rintro ((h | h) | ⟨t2, ht2, h⟩)
      · exact Or.inr ⟨t, List.mem_cons_self _ _, h.symm⟩
      · exact Or.inl h
      · exact Or.inr ⟨t2, List.mem_cons_of_mem _ ht2, h⟩
    · rintro (h | ⟨t2, ht2, h⟩)
      · exact Or.inl (Or.inr h)
      · rcases List.mem_cons.1 ht2 with e | hr
        · subst e
          exact Or.inl (Or.inl h.symm)
        · exact Or.inr ⟨t2, hr, h⟩

theorem foldl_set_nodup (magnet : Torrent → GoString) (ts : List Torrent)
    (acc : TorrentMagnets) (h : (acc.map Prod.fst).Nodup) :
    ((ts.foldl (fun m t => TorrentMagnets.set m t.Quality (magnet t)) acc).map Prod.fst).Nodup := by
  induction ts generalizing acc with
  | nil => exact h
  | cons t rest ih =>
    rw [List.foldl_cons]
    exact ih _ (TorrentMagnets_nodup_set acc _ _ h)

/-- C15: for every title, site domain, tracker list and torrent list, the map
of `GetMagnetLinks` has as keys exactly the quality labels of the torrents,
each once; the value of a quality is the magnet link of the last torrent in
list order with that quality; the empty list gives the empty map, and torrents
of pairwise distinct quality give as many entries as there are torrents. -/
theorem GetMagnetLinks_last_wins (title upperDomain : GoString) (trackers : List GoString)
    (torrents : List Torrent) :
    ((GetMagnetLinks title upperDomain trackers torrents).map Prod.fst).Nodup ∧
    (∀ q, q ∈ (GetMagnetLinks title upperDomain trackers torrents).map Prod.fst
      ↔ ∃ t ∈ torrents, t.Quality = q) ∧
    (∀ q, TorrentMagnets.get? (GetMagnetLinks title upperDomain trackers torrents) q
      = ((torrents.filter (fun t => decide (t.Quality = q))).getLast?).map
          (getMagnetFor title upperDomain trackers)) ∧
    GetMagnetLinks title upperDomain trackers [] = [] ∧
    ((torrents.map Torrent.Quality).Nodup →
      (GetMagnetLinks title upperDomain trackers torrents).length = torrents.length) := by
  have hnd : ((GetMagnetLinks title upperDomain trackers torrents).map Prod.fst).Nodup :=
    foldl_set_nodup _ torrents [] List.nodup_nil
  have hkeys : ∀ q, q ∈ (GetMagnetLinks title upperDomain trackers torrents).map Prod.fst
      ↔ ∃ t ∈ torrents, t.Quality = q := by
    intro q
    unfold GetMagnetLinks
    rw [foldl_set_keys]
    simp
  refine ⟨hnd, hkeys, ?_, rfl, ?_⟩
  · intro q
    unfold GetMagnetLinks
    rw [foldl_set_get?]
    cases (torrents.filter (fun t => decide (t.Quality = q))).getLast? <;> rfl
  · intro hq
    have hperm : ((GetMagnetLinks title upperDomain trackers torrents).map Prod.fst).Perm
        (torrents.map Torrent.Quality) := by
      rw [List.perm_ext_iff_of_nodup hnd hq]
      intro q
      rw [hkeys q, List.mem_map]
    have := hperm.length_eq
    simpa using this

set_option maxRecDepth 100000 in
/-- Witness of C15: the four torrents of the test, two of them 1080p. The map
has three entries and 1080p maps to the magnet link of `Hash2`. -/
theorem GetMagnetLinks_last_wins_witness :
    (GetMagnetLinks (lit "Oppenheimer (2023)") (lit "YTS.MX")
        [lit "udp://open.demonii.com:1337/announce"] testTorrents).map Prod.fst
      = [Quality720p, Quality1080p, Quality2160p] ∧
    TorrentMagnets.get? (GetMagnetLinks (lit "Oppenheimer (2023)") (lit "YTS.MX")
        [lit "udp://open.demonii.com:1337/announce"] testTorrents) Quality1080p
      = some (getMagnetFor (lit "Oppenheimer (2023)") (lit "YTS.MX")
          [lit "udp://open.demonii.com:1337/announce"]
          { Hash := lit "Hash2", Quality := Quality1080p }) ∧
    ((GetMagnetLinks (lit "Oppenheimer (2023)") (lit "YTS.MX")
        [lit "udp://open.demonii.com:1337/announce"] testTorrents).map Prod.fst).Nodup :=
  ⟨by decide, by decide,
    (GetMagnetLinks_last_wins (lit "Oppenheimer (2023)") (lit "YTS.MX")
      [lit "udp://open.demonii.com:1337/announce"] testTorrents).1⟩

/-- C16: `NewClientWithConfig` fails with `ErrInvalidClientConfig` when the
request timeout is strictly below `TimeoutLimitLower` or strictly above
`TimeoutLimitUpper`, and makes the client for every timeout in the closed
interval between them, both limits included. With limits that lie strictly
between one second and one hour and have one minute between them, one second
and one hour fail and one minute succeeds. -/
theorem NewClientWithConfig_timeout (lower upper : Int) (config : ClientConfig) :
    ((config.RequestTimeout < lower ∨ config.RequestTimeout > upper) →
      NewClientWithConfig lower upper config = .error .ErrInvalidClientConfig) ∧
    ((lower ≤ config.RequestTimeout ∧ config.RequestTimeout ≤ upper) →
      NewClientWithConfig lower upper config = .ok { config := config }) ∧
    (lower ≤ upper →
      NewClientWithConfig lower upper { config with RequestTimeout := lower }
        = .ok { config := { config with RequestTimeout := lower } } ∧
      NewClientWithConfig lower upper { config with RequestTimeout := upper }
        = .ok { config := { config with RequestTimeout := upper } }) ∧
    ((Second < lower ∧ lower ≤ Minute ∧ Minute ≤ upper ∧ upper < Hour) →
      NewClientWithConfig lower upper { config with RequestTimeout := Second }
        = .error .ErrInvalidClientConfig ∧
      NewClientWithConfig lower upper { config with RequestTimeout := Hour }
        = .error .ErrInvalidClientConfig ∧
      NewClientWithConfig lower upper { config with RequestTimeout := Minute }
        = .ok { config := { config with RequestTimeout := Minute } }) := by
  refine ⟨?_, ?_, ?_, ?_⟩
  · intro h
    unfold NewClientWithConfig
    rw [if_pos h]
  · intro h
    unfold NewClientWithConfig
    rw [if_neg (by omega)]
  · intro h
    unfold NewClientWithConfig
    constructor
    · rw [if_neg (by simp only; omega)]
    · rw [if_neg (by simp only; omega)]
  · intro h
    unfold NewClientWithConfig
    refine ⟨?_, ?_, ?_⟩
    · rw [if_pos (by simp only; omega)]
    · rw [if_pos (by simp only; omega)]
    · rw [if_neg (by simp only; omega)]

/-- Witness of C16: limits of five seconds and five minutes, and a timeout of
one second. -/
theorem NewClientWithConfig_timeout_witness :
    (Second < 5 * Second ∨ Second > 5 * Minute) ∧
    NewClientWithConfig (5 * Second) (5 * Minute)
        { APIBaseURL := [], SiteURL := [], SiteDomain := [], RequestTimeout := Second,
          TorrentTrackers := [], Debug := false }
      = .error .ErrInvalidClientConfig :=
  ⟨by decide, (NewClientWithConfig_timeout (5 * Second) (5 * Minute)
    { APIBaseURL := [], SiteURL := [], SiteDomain := [], RequestTimeout := Second,
      TorrentTrackers := [], Debug := false }).1 (by decide)⟩
/-! ## Claims on the encoding of the default filters -/

theorem joinEntries_split (pre post : List (GoString × GoString)) (p : GoString × GoString)
    (hpre : pre ≠ []) :
    joinEntries (pre ++ p :: post)
      = (joinEntries pre ++ (38 :: QueryEscape p.1 ++ [61])) ++ QueryEscape p.2
          ++ post.flatMap (fun q => 38 :: entryText q) := by
  cases pre with
  | nil => exact absurd rfl hpre
  | cons a rest =>
    simp [joinEntries, entryText, List.flatMap_append, List.flatMap_cons]

theorem expectedPairs_default (q : GoString) (hq : q ≠ []) :
    expectedPairs (DefaultSearchMoviesFilters q)
      = [(lit "genre", GenreAll), (lit "limit", fmtD 20), (lit "order_by", OrderByDesc),
         (lit "page", fmtD 1), (lit "quality", QualityAll)]
        ++ (lit "query_term", q) :: [(lit "sort_by", SortByDateAdded)] := by
  unfold expectedPairs
  rw [if_pos (show (DefaultSearchMoviesFilters q).Genre ≠ [] from (by decide : GenreAll ≠ [])),
    if_pos (show (DefaultSearchMoviesFilters q).Limit ≠ 0 from (by decide : (20 : Int) ≠ 0)),
    if_neg (show ¬ (DefaultSearchMoviesFilters q).MinimumRating ≠ 0 from
      (by decide : ¬ (0 : Int) ≠ 0)),
    if_pos (show (DefaultSearchMoviesFilters q).OrderBy ≠ [] from (by decide : OrderByDesc ≠ [])),
    if_pos (show (DefaultSearchMoviesFilters q).Page ≠ 0 from (by decide : (1 : Int) ≠ 0)),
    if_pos (show (DefaultSearchMoviesFilters q).Quality ≠ [] from (by decide : QualityAll ≠ [])),
    if_pos (show (DefaultSearchMoviesFilters q).QueryTerm ≠ [] from hq),
    if_pos (show (DefaultSearchMoviesFilters q).SortBy ≠ [] from
      (by decide : SortByDateAdded ≠ [])),
    if_neg (show ¬ (DefaultSearchMoviesFilters q).WithRTRatings = true from
      (by decide : ¬ false = true))]
  rfl

set_option maxRecDepth 100000 in
theorem default_prefix :
    joinEntries [(lit "genre", GenreAll), (lit "limit", fmtD 20), (lit "order_by", OrderByDesc),
        (lit "page", fmtD 1), (lit "quality", QualityAll)]
      ++ (38 :: QueryEscape (lit "query_term") ++ [61])
      = lit "genre=all&limit=20&order_by=desc&page=1&quality=all&query_term=" := by
  decide

set_option maxRecDepth 100000 in
theorem default_suffix :
    [(lit "sort_by", SortByDateAdded)].flatMap (fun q => 38 :: entryText q)
      = lit "&sort_by=date_added" := by
  decide

/-- C17: for every non-empty query term q, `getQueryString` on
`DefaultSearchMoviesFilters(q)` returns
`genre=all&limit=20&order_by=desc&page=1&quality=all&query_term=`, then
`QueryEscape(q)`, then `&sort_by=date_added`, with a nil error, in whatever
order the field map is visited (minimum_rating and with_rt_ratings are at zero
and absent); for the empty q it returns
`genre=all&limit=20&order_by=desc&page=1&quality=all&sort_by=date_added`. -/
theorem DefaultSearchMoviesFilters_getQueryString (q : GoString) (hq : q ≠ []) :
    (DefaultSearchMoviesFilters q).getQueryString
      = (lit "genre=all&limit=20&order_by=desc&page=1&quality=all&query_term="
          ++ QueryEscape q ++ lit "&sort_by=date_added", none) ∧
    (∀ order : List (GoString × Value), order.Perm (DefaultSearchMoviesFilters q).queryMapping →
      (DefaultSearchMoviesFilters q).getQueryStringIn order
        = (DefaultSearchMoviesFilters q).getQueryString) ∧
    (DefaultSearchMoviesFilters []).getQueryString
      = (lit "genre=all&limit=20&order_by=desc&page=1&quality=all&sort_by=date_added", none) := by
  have hv : (DefaultSearchMoviesFilters q).validateFilters = none := by
    rw [validateFilters_eq_none]
    exact ⟨(by decide : (0 : Int) ≤ 20 ∧ (20 : Int) ≤ 50),
      (by decide : (1 : Int) = 0 ∨ (1 : Int) ≤ 1),
      (by decide : QualityAll ∈ qualityConstants),
      (by decide : (0 : Int) ≤ 0 ∧ (0 : Int) ≤ 9),
      (by decide : GenreAll ∈ genreConstants),
      (by decide : SortByDateAdded = [] ∨ SortByDateAdded ∈ sortByConstants),
      (by decide : OrderByDesc ∈ orderByConstants)⟩
  refine ⟨?_, ?_, by decide⟩
  · rw [getQueryString_eq _ hv, expectedPairs_default q hq,
      joinEntries_split _ _ _ (List.cons_ne_nil _ _), default_prefix, default_suffix]
  · intro order hp
    rw [getQueryStringIn_eq _ hv order hp, getQueryString_eq _ hv]

set_option maxRecDepth 100000 in
/-- Witness of C17: the query term `oppenheimer` of the example program. -/
theorem DefaultSearchMoviesFilters_getQueryString_witness :
    lit "oppenheimer" ≠ [] ∧
    (DefaultSearchMoviesFilters (lit "oppenheimer")).getQueryString
      = (lit "genre=all&limit=20&order_by=desc&page=1&quality=all&query_term="
          ++ QueryEscape (lit "oppenheimer") ++ lit "&sort_by=date_added", none) ∧
    QueryEscape (lit "oppenheimer") = lit "oppenheimer" :=
  ⟨by decide, (DefaultSearchMoviesFilters_getQueryString (lit "oppenheimer") (by decide)).1,
    by decide⟩

/-- C18: `MovieDetailsFilters.getQueryString` returns a string for every
value (it has no error result): the empty string when both flags are false,
`with_images=true` when only WithImages is set, `with_cast=true` when only
WithCast is set, `with_cast=true&with_images=true` when both are set.
`DefaultMovieDetailsFilters()` has both flags set and encodes to
`with_cast=true&with_images=true`. -/
theorem MovieDetailsFilters_getQueryString (f : MovieDetailsFilters) :
    f.getQueryString =
      (if f.WithImages = true ∧ f.WithCast = true then lit "with_cast=true&with_images=true"
       else if f.WithImages = true then lit "with_images=true"
       else if f.WithCast = true then lit "with_cast=true"
       else []) ∧
    DefaultMovieDetailsFilters = { WithImages := true, WithCast := true } ∧
    DefaultMovieDetailsFilters.getQueryString = lit "with_cast=true&with_images=true" ∧
    ({ WithImages := false, WithCast := false } : MovieDetailsFilters).getQueryString = [] := by
  refine ⟨?_, rfl, by decide, by decide⟩
  obtain ⟨i, c⟩ := f
  cases i <;> cases c <;> decide

/-! ## Claims on every successful encoding -/

theorem qualityConstants_escape : ∀ v ∈ qualityConstants, QueryEscape v = v := by
  decide

set_option maxRecDepth 100000 in
theorem genreConstants_escape : ∀ v ∈ genreConstants, QueryEscape v = v := by
  decide

theorem orderByConstants_escape : ∀ v ∈ orderByConstants, QueryEscape v = v := by
  decide

theorem mem_entries_expectedPairs (f : SearchMoviesFilters) (k v : GoString) :
    (k, v) ∈ entries (joinEntries (expectedPairs f)) ↔
      ∃ v0, (k, v0) ∈ expectedPairs f ∧ v = QueryEscape v0 := by
  rw [entries_joinEntries]
  constructor
  · intro h
    obtain ⟨p, hp, he⟩ := List.mem_map.1 h
    simp only [Prod.mk.injEq] at he
    have hk : QueryEscape p.1 = p.1 := sortedKeyNames_escape _
      ((expectedPairs_keys_sublist f).subset (List.mem_map_of_mem Prod.fst hp))
    refine ⟨p.2, ?_, he.2.symm⟩
    rw [← he.1, hk]
    exact hp
  · rintro ⟨v0, hm, rfl⟩
    have hk : QueryEscape k = k := sortedKeyNames_escape _
      ((expectedPairs_keys_sublist f).subset (List.mem_map_of_mem Prod.fst hm))
    exact List.mem_map.2 ⟨(k, v0), hm, by simp only [hk]⟩

theorem joinEntries_ne_nil (ps : List (GoString × GoString)) (h : ps ≠ []) :
    joinEntries ps ≠ [] := by
  cases ps with
  | nil => exact absurd rfl h
  | cons p rest =>
    intro hn
    rw [joinEntries, List.append_eq_nil] at hn
    exact entryText_ne_nil p hn.1

theorem filter_key_eq (l : List (GoString × GoString)) (k v : GoString)
    (hnd : (l.map Prod.fst).Nodup) (hm : (k, v) ∈ l) :
    l.filter (fun e => decide (e.1 = k)) = [(k, v)] := by
  induction l with
  | nil => cases hm
  | cons a rest ih =>
    rw [List.map_cons, List.nodup_cons] at hnd
    rcases List.mem_cons.1 hm with e | hr
    · subst e
      have hrest : rest.filter (fun e => decide (e.1 = k)) = [] := by
        rw [List.filter_eq_nil_iff]
        intro e he hk
        have hk2 : e.1 = k := by simpa using hk
        have hmem : e.1 ∈ rest.map Prod.fst := List.mem_map_of_mem Prod.fst he
        rw [hk2] at hmem
        exact hnd.1 hmem
      rw [List.filter_cons_of_pos (by simp), hrest]
    · have hne : ¬ a.1 = k := by
        intro e
        have hmem : k ∈ rest.map Prod.fst := List.mem_map_of_mem Prod.fst hr
        rw [← e] at hmem
        exact hnd.1 hmem
      rw [List.filter_cons_of_neg (by simpa using hne)]
      exact ih hnd.2 hr

/-- C19: whenever `getQueryString` succeeds (in whatever order the field map
is visited), the returned string is not empty and holds each of the keys
quality, genre and order_by exactly once, with the value of that field, which
is a member of the vocabulary of the field. -/
theorem getQueryString_success_has_enums (f : SearchMoviesFilters)
    (order : List (GoString × Value)) (hp : order.Perm f.queryMapping) (s : GoString)
    (h : f.getQueryStringIn order = (s, none)) :
    s ≠ [] ∧
    ((entries s).filter (fun e => decide (e.1 = lit "quality")) = [(lit "quality", f.Quality)] ∧
      f.Quality ∈ qualityConstants) ∧
    ((entries s).filter (fun e => decide (e.1 = lit "genre")) = [(lit "genre", f.Genre)] ∧
      f.Genre ∈ genreConstants) ∧
    ((entries s).filter (fun e => decide (e.1 = lit "order_by"))
        = [(lit "order_by", f.OrderBy)] ∧
      f.OrderBy ∈ orderByConstants) := by
  have hv : f.validateFilters = none := by
    unfold SearchMoviesFilters.getQueryStringIn at h
    cases hv : f.validateFilters with
    | none => rfl
    | some err => rw [hv] at h; cases h
  have hs : s = joinEntries (expectedPairs f) := by
    rw [getQueryStringIn_eq f hv order hp] at h
    exact (congrArg Prod.fst h).symm
  obtain ⟨_, _, hq, _, hg, _, ho⟩ := (validateFilters_eq_none f).1 hv
  have hq0 : f.Quality ≠ [] := fun e => nil_not_mem_qualityConstants (e ▸ hq)
  have hg0 : f.Genre ≠ [] := fun e => nil_not_mem_genreConstants (e ▸ hg)
  have ho0 : f.OrderBy ≠ [] := fun e => nil_not_mem_orderByConstants (e ▸ ho)
  have mq : (lit "quality", f.Quality) ∈ expectedPairs f :=
    (mem_expectedPairs f _ _).2 (Or.inr (Or.inr (Or.inl ⟨rfl, hq0, rfl⟩)))
  have mg : (lit "genre", f.Genre) ∈ expectedPairs f :=
    (mem_expectedPairs f _ _).2
      (Or.inr (Or.inr (Or.inr (Or.inr (Or.inr (Or.inl ⟨rfl, hg0, rfl⟩))))))
  have mo : (lit "order_by", f.OrderBy) ∈ expectedPairs f :=
    (mem_expectedPairs f _ _).2
      (Or.inr (Or.inr (Or.inr (Or.inr (Or.inr (Or.inr (Or.inr (Or.inl ⟨rfl, ho0, rfl⟩))))))))
  have hnd : ((entries s).map Prod.fst).Nodup := by
    rw [hs, entries_keys_expectedPairs]
    exact expectedPairs_keys_nodup f
  refine ⟨?_, ⟨?_, hq⟩, ⟨?_, hg⟩, ⟨?_, ho⟩⟩
  · rw [hs]
    exact joinEntries_ne_nil _ (List.ne_nil_of_mem mq)
  · apply filter_key_eq _ _ _ hnd
    rw [hs, mem_entries_expectedPairs]
    exact ⟨f.Quality, mq, (qualityConstants_escape _ hq).symm⟩
  · apply filter_key_eq _ _ _ hnd
    rw [hs, mem_entries_expectedPairs]
    exact ⟨f.Genre, mg, (genreConstants_escape _ hg).symm⟩
  · apply filter_key_eq _ _ _ hnd
    rw [hs, mem_entries_expectedPairs]
    exact ⟨f.OrderBy, mo, (orderByConstants_escape _ ho).symm⟩

set_option maxRecDepth 100000 in
/-- Witness of C19: the valid test filters, the field map in source order. -/
theorem getQueryString_success_has_enums_witness :
    validSearchFilters.queryMapping.Perm validSearchFilters.queryMapping ∧
    validSearchFilters.getQueryStringIn validSearchFilters.queryMapping
      = (lit ("genre=Animation&limit=10&minimum_rating=9&order_by=asc&page=1&quality=1080p"
          ++ "&query_term=Oppenheimer+%282023%29&sort_by=download_count"), none) ∧
    lit ("genre=Animation&limit=10&minimum_rating=9&order_by=asc&page=1&quality=1080p"
          ++ "&query_term=Oppenheimer+%282023%29&sort_by=download_count") ≠ [] :=
  ⟨List.Perm.refl _, by decide,
    (getQueryString_success_has_enums validSearchFilters _ (List.Perm.refl _) _
      (by decide)).1⟩
end Yts
